import Mathlib

/-!
Aggregation of firewall BLOCK log lines (firelog).

Shallow embedding of `C/src/firelog.c` (devopsbroker-utils).

* A `LogLine` is the structured record `b45c9f7e_initLogLine` fills in from one
  syslog line.
* `filterInputLogLine` / `filterOutputLogLine` are the two aggregation routines;
  the global `ListArray`s they mutate are passed and returned explicitly as
  `List LogLine`.
* The unsigned 32-bit `count` field is a `Nat` and `count++` is taken modulo
  `2^32`.
-/

namespace Firelog

/-! ## Data model -/

/-- Number of values of a `uint32_t`; `count++` wraps modulo this. The `count`
field is printed with `%u` in `main`, i.e. it is a 32-bit unsigned integer. -/
def UINT32_MOD : Nat := 4294967296

/-- The `LogLine` record of `org/devopsbroker/log/logline.h`, with the fields that
`firelog.c` reads and writes. `in_` is the C field `in` (a keyword in Lean). The
`char *` fields are strings; the ports and the count are unsigned integers. -/
structure LogLine where
  in_ : String
  out : String
  macAddress : String
  sourceIPAddr : String
  destIPAddr : String
  protocol : String
  sourcePort : Nat
  destPort : Nat
  count : Nat
deriving DecidableEq

/-- Modelled from the spec: `f6215943_isEqual` (string library, not part of the
sources at hand) is the equality test on NUL-terminated strings; the spec reads
each call as "... equal". -/
def f6215943_isEqual (a b : String) : Bool := decide (a = b)

/-- Modelled from the spec: `b45c9f7e_cloneLogLine` (logline library, not part of
the sources at hand) returns "a full independent copy with occurrence-count = 1". -/
def b45c9f7e_cloneLogLine (logLine : LogLine) : LogLine :=
  { logLine with count := 1 }

/-- Modelled from the spec: `b196167f_add` (listarray library, not part of the
sources at hand) appends the item at the end of the list, "preserving first-seen
order". -/
def b196167f_add (listArray : List LogLine) (item : LogLine) : List LogLine :=
  listArray ++ [item]

/-! ## `filterInputLogLine` -/

/-- The test of `filterInputLogLine`, lines 254-261: the outer `if` on the five
string fields and the inner `if` on the two ports. -/
def inputEntryMatches (listEntry logLine : LogLine) : Bool :=
  if f6215943_isEqual listEntry.in_ logLine.in_
      && f6215943_isEqual listEntry.out logLine.out
      && f6215943_isEqual listEntry.macAddress logLine.macAddress
      && f6215943_isEqual listEntry.sourceIPAddr logLine.sourceIPAddr
      && f6215943_isEqual listEntry.protocol logLine.protocol then
    if listEntry.sourcePort == logLine.sourcePort
        || listEntry.destPort == logLine.destPort then
      true
    else
      false
  else
    false

/-- The `while (i < listLength)` loop of `filterInputLogLine`, lines 251-267, run
on the entries not yet visited. `some l` is the early `return` after
`listEntry->count++` (with `l` the updated entries); `none` is falling out of the
loop without a match. -/
def filterInputScan (logLine : LogLine) : List LogLine → Option (List LogLine)
  | [] => none
  | listEntry :: rest =>
    if inputEntryMatches listEntry logLine then
      some ({ listEntry with count := (listEntry.count + 1) % UINT32_MOD } :: rest)
    else
      (filterInputScan logLine rest).map (fun updated => listEntry :: updated)

/-- The function `filterInputLogLine`, lines 244-272: scan, and when the scan finds
nothing add a clone of the record to the list. -/
def filterInputLogLine (inputLogLineList : List LogLine) (logLine : LogLine) :
    List LogLine :=
  match filterInputScan logLine inputLogLineList with
  | some updated => updated
  | none => b196167f_add inputLogLineList (b45c9f7e_cloneLogLine logLine)

/-! ## `filterOutputLogLine` -/

/-- The test of `filterOutputLogLine`, lines 290-294. -/
def outputEntryMatches (listEntry logLine : LogLine) : Bool :=
  f6215943_isEqual listEntry.in_ logLine.in_
    && f6215943_isEqual listEntry.out logLine.out
    && f6215943_isEqual listEntry.destIPAddr logLine.destIPAddr
    && f6215943_isEqual listEntry.protocol logLine.protocol
    && listEntry.destPort == logLine.destPort

/-- The `while (i < listLength)` loop of `filterOutputLogLine`, lines 287-299. -/
def filterOutputScan (logLine : LogLine) : List LogLine → Option (List LogLine)
  | [] => none
  | listEntry :: rest =>
    if outputEntryMatches listEntry logLine then
      some ({ listEntry with count := (listEntry.count + 1) % UINT32_MOD } :: rest)
    else
      (filterOutputScan logLine rest).map (fun updated => listEntry :: updated)

/-- The function `filterOutputLogLine`, lines 280-304. -/
def filterOutputLogLine (outputLogLineList : List LogLine) (logLine : LogLine) :
    List LogLine :=
  match filterOutputScan logLine outputLogLineList with
  | some updated => updated
  | none => b196167f_add outputLogLineList (b45c9f7e_cloneLogLine logLine)

/-! ## The dispatch in `main` -/

/-- The two global lists of `firelog.c`. -/
structure Stores where
  inputLogLineList : List LogLine
  outputLogLineList : List LogLine
deriving DecidableEq

/-- Lines 116-120 of `main`: `if (*logLine.in)` sends the record to
`filterInputLogLine`, otherwise to `filterOutputLogLine`. -/
def processLogLine (stores : Stores) (logLine : LogLine) : Stores :=
  if logLine.in_ ≠ "" then
    { stores with inputLogLineList := filterInputLogLine stores.inputLogLineList logLine }
  else
    { stores with outputLogLineList := filterOutputLogLine stores.outputLogLineList logLine }

/-- The scan of `main` over the extracted records of all BLOCK lines, in file
order, starting from the two freshly created (empty) lists. -/
def processLog (logLines : List LogLine) : Stores :=
  logLines.foldl processLogLine { inputLogLineList := [], outputLogLineList := [] }

/-! ## Vocabulary of the statements -/

/-- The entry after `listEntry->count++`. -/
def bumpCount (listEntry : LogLine) : LogLine :=
  { listEntry with count := (listEntry.count + 1) % UINT32_MOD }

/-- An entry with its occurrence-count blanked out: all the other fields. -/
def withoutCount (listEntry : LogLine) : LogLine :=
  { listEntry with count := 0 }

/-- No two distinct positions of the list hold entries that match each other. -/
def NoTwoMatch (cond : LogLine → LogLine → Bool) (l : List LogLine) : Prop :=
  ∀ i j : Nat, ∀ a b : LogLine, i ≠ j → l[i]? = some a → l[j]? = some b → cond a b = false

/-- A test that does not read the `count` of either record. -/
def IgnoresCount (cond : LogLine → LogLine → Bool) : Prop :=
  ∀ a b, cond a b = cond (withoutCount a) (withoutCount b)

/-- Every entry of the list has a count of at most `n`. -/
def CountsAtMost (n : Nat) (l : List LogLine) : Prop :=
  ∀ e ∈ l, e.count ≤ n

/-- Every position of `l` is still a position of `l'`, with a count in `l'` at
least the count in `l`. -/
def CountsGrow (l l' : List LogLine) : Prop :=
  ∀ (i : Nat) (a : LogLine), l[i]? = some a → ∃ b : LogLine, l'[i]? = some b ∧ a.count ≤ b.count

/-- Ignoring the counts, the entries of `l` are the first entries of `l'`, in the
same order. -/
def KeysPrefix (l l' : List LogLine) : Prop :=
  l.map withoutCount <+: l'.map withoutCount

/-- The two directions of a block event, one aggregation list for each. -/
inductive Direction where
  | Inbound
  | Outbound
deriving DecidableEq

/-- The test that the aggregation routine of a direction applies to a stored entry
and a new record. -/
def policyMatches : Direction → LogLine → LogLine → Bool
  | Direction.Inbound => inputEntryMatches
  | Direction.Outbound => outputEntryMatches

/-- Recording one record into the list of a direction: the aggregation routine of
that direction. -/
def recordEvent : Direction → List LogLine → LogLine → List LogLine
  | Direction.Inbound => filterInputLogLine
  | Direction.Outbound => filterOutputLogLine

/-- Generic form of the two scans, used to prove facts about both at once. -/
def scanWith (cond : LogLine → LogLine → Bool) (logLine : LogLine) :
    List LogLine → Option (List LogLine)
  | [] => none
  | listEntry :: rest =>
    if cond listEntry logLine then
      some (bumpCount listEntry :: rest)
    else
      (scanWith cond logLine rest).map (fun updated => listEntry :: updated)

/-- Generic form of the two aggregation routines. -/
def recordWith (cond : LogLine → LogLine → Bool) (l : List LogLine) (logLine : LogLine) :
    List LogLine :=
  match scanWith cond logLine l with
  | some updated => updated
  | none => l ++ [{ logLine with count := 1 }]

/-! ## Sample records -/

/-- Scenario A, first line: `IN=eth0 OUT= MAC=aa SRC=10.0.0.1 DST=10.0.0.9 PROTO=UDP SPT=100 DPT=200`.
The `count` of a record that is not stored yet is never read by the two routines. -/
def scenarioA1 : LogLine :=
  { in_ := "eth0", out := "", macAddress := "aa", sourceIPAddr := "10.0.0.1",
    destIPAddr := "10.0.0.9", protocol := "UDP", sourcePort := 100, destPort := 200,
    count := 1 }

/-- Scenario A, second line: the same with `SPT=101`. -/
def scenarioA2 : LogLine := { scenarioA1 with sourcePort := 101 }

/-- Scenario B, second line: both `SPT` and `DPT` changed. -/
def scenarioB2 : LogLine := { scenarioA1 with sourcePort := 101, destPort := 201 }

/-- Scenario C, first line: `IN= OUT=eth0 SRC=1.1.1.1 DST=2.2.2.2 PROTO=TCP SPT=500 DPT=443`. -/
def scenarioC1 : LogLine :=
  { in_ := "", out := "eth0", macAddress := "", sourceIPAddr := "1.1.1.1",
    destIPAddr := "2.2.2.2", protocol := "TCP", sourcePort := 500, destPort := 443,
    count := 1 }

/-- Scenario C, second line: the same with `SPT=501`. -/
def scenarioC2 : LogLine := { scenarioC1 with sourcePort := 501 }

/-- Scenario D, second line: the same as C with `DPT=80`. -/
def scenarioD2 : LogLine := { scenarioC1 with destPort := 80 }

/-- The base event of scenario A seen from another device (other MAC address). -/
def otherHost : LogLine := { scenarioA1 with macAddress := "bb" }

/-- A stored entry whose counter has reached the largest `uint32_t`. -/
def saturatedEntry : LogLine := { scenarioA1 with count := 4294967295 }

/-- A forwarded packet: both `IN=` and `OUT=` carry an interface. -/
def forwardedEvent : LogLine := { scenarioA1 with out := "eth1" }

/-- A record in which neither `IN=` nor `OUT=` carries an interface. -/
def noDirectionEvent : LogLine := { scenarioC1 with out := "" }

/-- The base line of scenario A sent from another source address, `SRC=10.0.0.2`. -/
def otherSource : LogLine := { scenarioA1 with sourceIPAddr := "10.0.0.2" }

/-- The base line of scenario A with ports `SPT=1 DPT=2`. -/
def ports12 : LogLine := { scenarioA1 with sourcePort := 1, destPort := 2 }

/-- The base line of scenario A with ports `SPT=1 DPT=4`. -/
def ports14 : LogLine := { scenarioA1 with sourcePort := 1, destPort := 4 }

/-- The base line of scenario A with ports `SPT=3 DPT=4`. -/
def ports34 : LogLine := { scenarioA1 with sourcePort := 3, destPort := 4 }

/-- A stored entry whose counter is one below the largest `uint32_t`. -/
def nearlySaturatedEntry : LogLine := { scenarioA1 with count := 4294967294 }

/-! ## Classification and totals -/

/-- The condition of line 116 of `main`, `if (*logLine.in)`, read as the direction
whose routine is called. -/
def classify (logLine : LogLine) : Direction :=
  if logLine.in_ ≠ "" then Direction.Inbound else Direction.Outbound

/-- Sum of the occurrence-counts of the entries of a list. -/
def totalCount (l : List LogLine) : Nat :=
  (l.map LogLine.count).sum

/-! ## Reference grouping of outbound records -/

/-- The key of the outbound policy: `in`, `out`, `destIPAddr`, `protocol` and
`destPort` of a record. -/
def outboundKey (logLine : LogLine) : String × String × String × String × Nat :=
  (logLine.in_, logLine.out, logLine.destIPAddr, logLine.protocol, logLine.destPort)

/-- From the words of the specification: the first record of each distinct key,
listed in the order in which the keys first occur in the sequence. -/
def firstOfEachKey : List LogLine → List LogLine
  | [] => []
  | logLine :: rest =>
    logLine :: (firstOfEachKey rest).filter (fun x => outboundKey x ≠ outboundKey logLine)

/-- From the words of the specification: one entry for each distinct key, in order
of first occurrence, with the fields of the first record of that key and a count
equal to the number of records of the sequence that have that key. -/
def referenceGrouping (logLines : List LogLine) : List LogLine :=
  (firstOfEachKey logLines).map
    (fun r => { r with count := logLines.countP (fun x => outboundKey x = outboundKey r) })

/-! ## The field extractor -/

/-- Modelled from the spec: the tokens of a line, "separated by single spaces" (the
first step of `b45c9f7e_initLogLine`, which is not part of the sources at hand). Two
spaces in a row enclose an empty token. -/
def splitOnSpaces : List Char → List (List Char)
  | [] => [[]]
  | c :: rest =>
    if c = ' ' then
      [] :: splitOnSpaces rest
    else
      match splitOnSpaces rest with
      | [] => [[c]]
      | token :: tokens => (c :: token) :: tokens

/-- Modelled from the spec: "split each token on its first `=`"; the key is the text
in front of it and the value runs "verbatim to the next space or end of line". A
token without `=` is not a key=value token. -/
def splitKeyValue (token : List Char) : Option (String × String) :=
  if '=' ∈ token then
    some (String.mk (token.takeWhile (fun c => c ≠ '=')),
          String.mk ((token.dropWhile (fun c => c ≠ '=')).drop 1))
  else
    none

/-- The value a token gives to `key`: `some value` when the token is `key=value`. -/
def tokenValue (key : String) (token : List Char) : Option String :=
  match splitKeyValue token with
  | some (k, v) => if k = key then some v else none
  | none => none

/-- The values that the tokens of a line give to `key`, in the order of the line. -/
def keyValues (key : String) (tokens : List (List Char)) : List String :=
  tokens.filterMap (tokenValue key)

/-- Modelled from the spec: the value of `key` in a line is the empty string when no
token has the key ("best-effort empty / zero defaults") and the value of the token
when exactly one has it ("values run verbatim to the next space or end of line").
For a key that occurs in several tokens the spec names no token: `choose` stands for
whatever the extractor makes of the values of a repeated key. -/
def fieldValue (choose : List String → String) (key : String)
    (tokens : List (List Char)) : String :=
  match keyValues key tokens with
  | [] => ""
  | [value] => value
  | values => choose values

/-- A value that reads as an unsigned integer: one or more decimal digits. -/
def isUnsigned (value : String) : Bool :=
  !value.data.isEmpty && value.data.all Char.isDigit

/-- Modelled from the spec: "SPT/DPT are parsed as unsigned integers; missing or
non-numeric values yield 0". -/
def parseUnsigned (value : String) : Nat :=
  if isUnsigned value then
    value.data.foldl (fun n c => 10 * n + (c.toNat - 48)) 0
  else
    0

/-- Modelled from the spec: the record of the eight fields of a tokenised line. The
count has no meaning before the record is stored and is set to `0`. -/
def extractFields (choose : List String → String) (tokens : List (List Char)) : LogLine :=
  { in_ := fieldValue choose "IN" tokens
    out := fieldValue choose "OUT" tokens
    macAddress := fieldValue choose "MAC" tokens
    sourceIPAddr := fieldValue choose "SRC" tokens
    destIPAddr := fieldValue choose "DST" tokens
    protocol := fieldValue choose "PROTO" tokens
    sourcePort := parseUnsigned (fieldValue choose "SPT" tokens)
    destPort := parseUnsigned (fieldValue choose "DPT" tokens)
    count := 0 }

/-- Modelled from the spec: the field extractor `b45c9f7e_initLogLine` (logline
library, not part of the sources at hand). `none` is the MalformedEvent condition of
the spec, "if neither IN nor OUT is non-empty". -/
def b45c9f7e_initLogLine (choose : List String → String) (line : String) :
    Option LogLine :=
  if (extractFields choose (splitOnSpaces line.data)).in_ = ""
      ∧ (extractFields choose (splitOnSpaces line.data)).out = "" then
    none
  else
    some (extractFields choose (splitOnSpaces line.data))

/-- One way to treat a repeated key that does not depend on order: the value
counts when all tokens of the key agree on it, and the key is empty otherwise. -/
def chooseAgreed (values : List String) : String :=
  match values.dedup with
  | [value] => value
  | _ => ""

/-- Another way to treat a repeated key, which does depend on order: the value of
the first token of the key. -/
def chooseFirst (values : List String) : String :=
  values.headD ""

/-- The line of scenario A. -/
def lineA : String := "IN=eth0 OUT= MAC=aa SRC=10.0.0.1 DST=10.0.0.9 PROTO=UDP SPT=100 DPT=200"

/-- The line of scenario A with its tokens in another order. -/
def lineAPermuted : String :=
  "DPT=200 PROTO=UDP IN=eth0 SRC=10.0.0.1 OUT= SPT=100 MAC=aa DST=10.0.0.9"

/-- The line of scenario A with two tokens added that are not in the vocabulary. -/
def lineAExtra : String :=
  "IN=eth0 OUT= MAC=aa LEN=60 SRC=10.0.0.1 DST=10.0.0.9 DF PROTO=UDP SPT=100 DPT=200"

/-- A line that names two source addresses. -/
def lineTwoSources : String := "IN=eth0 SRC=1.1.1.1 SRC=2.2.2.2"

/-- The same tokens with the two source addresses exchanged. -/
def lineTwoSourcesSwapped : String := "IN=eth0 SRC=2.2.2.2 SRC=1.1.1.1"

/-! ## The inbound report of `main` -/

/-- The text a `%u` conversion prints for an unsigned value: its decimal digits. -/
def formatUnsigned (value : Nat) : String := toString value

/-- The `printf` call of lines 161-169 for one inbound entry, cut at the
conversions: each pair is the literal text of the format string in front of a
conversion, and the text the conversion prints. The `if` is the test
`listEntry->destPort == 0` that selects the ICMP format. -/
def inputReportFields (listEntry : LogLine) : List (String × String) :=
  if listEntry.destPort == 0 then
    [("Count: ", formatUnsigned listEntry.count), (" IN=", listEntry.in_),
     (" MAC=", listEntry.macAddress), (" SRC=", listEntry.sourceIPAddr),
     (" DST=", listEntry.destIPAddr), (" PROTO=", listEntry.protocol),
     (" TYPE=", formatUnsigned listEntry.sourcePort)]
  else
    [("Count: ", formatUnsigned listEntry.count), (" IN=", listEntry.in_),
     (" MAC=", listEntry.macAddress), (" SRC=", listEntry.sourceIPAddr),
     (" DST=", listEntry.destIPAddr), (" PROTO=", listEntry.protocol),
     (" SPT=", formatUnsigned listEntry.sourcePort),
     (" DPT=", formatUnsigned listEntry.destPort)]

/-- The line `printf` writes: the pieces in order, then the newline that ends both
format strings. -/
def renderFields (fields : List (String × String)) : String :=
  fields.foldl (fun text field => text ++ field.1 ++ field.2) "" ++ "\n"

/-- The report line of one inbound entry. -/
def printInputEntry (listEntry : LogLine) : String :=
  renderFields (inputReportFields listEntry)

/-- The loop of lines 158-172 over the inbound list: one line for each entry, in
list order. -/
def printInputEntries (inputLogLineList : List LogLine) : List String :=
  inputLogLineList.map printInputEntry

/-- The emitted line has a field `key=...`: cut at its spaces, one of the pieces
starts with the key and `=`. -/
def hasField (key : String) (line : String) : Bool :=
  (splitOnSpaces line.data).any (fun token => (key ++ "=").data.isPrefixOf token)

/-- None of the five text fields of the entry holds a space (the values of a log
line run to the next space). -/
def SpaceFreeFields (listEntry : LogLine) : Prop :=
  ' ' ∉ listEntry.in_.data ∧ ' ' ∉ listEntry.macAddress.data
    ∧ ' ' ∉ listEntry.sourceIPAddr.data ∧ ' ' ∉ listEntry.destIPAddr.data
    ∧ ' ' ∉ listEntry.protocol.data

/-- An ICMP entry as stored: no destination port, the ICMP type in `sourcePort`. -/
def icmpEntry : LogLine :=
  { scenarioA1 with protocol := "ICMP", sourcePort := 8, destPort := 0, count := 3 }

end Firelog

/-!
Network tuning arithmetic (nettuner).

Shallow embedding of the three calculation routines of `C/src/nettuner.c`. The
`uint32_t` fields are `Nat`s and every operation that can leave the 32-bit range is
followed by `% UINT32_MOD`. An integer division by zero has no result (`none`). The
floating-point expressions are not interpreted: their values, converted to
`uint32_t`, are supplied by a `FloatArith`.
-/

namespace Nettuner

/-- Number of values of a `uint32_t`. -/
def UINT32_MOD : Nat := 4294967296

/-- The macro of line 91. -/
def INT_COALESCING_BASE : Nat := 1000000

/-- The macros `TCP_HEADER_SIZE`, `UDP_HEADER_SIZE` and `IPV4_HEADER_SIZE` are defined
in headers that are not part of the sources at hand; they are parameters. -/
structure HeaderSizes where
  TCP_HEADER_SIZE : Nat
  UDP_HEADER_SIZE : Nat
  IPV4_HEADER_SIZE : Nat

/-- The floating-point expressions of `nettuner.c`, each with its conversion to
`uint32_t`, over an uninterpreted type `F` of `float` values. -/
structure FloatArith (F : Type) where
  /-- Lines 396-397: `(speed * ONE_MEGABIT_BYTES) / mtu`. -/
  framesPerSecond : F → Nat → Nat
  /-- Lines 314 and 319: `framesPerSecond * acceptableLatency`. -/
  timesLatency : Nat → F → Nat
  /-- Lines 357 and 361: `pages * 1.375f`. -/
  times1375 : Nat → Nat

/-- The struct `TuningParams`, lines 100-113. -/
structure TuningParams (F : Type) where
  deviceName : String
  levelOneDCacheSize : Nat
  numCpus : Nat
  pageSize : Nat
  downloadSpeed : F
  uploadSpeed : F
  acceptableLatency : F
  mtu : Nat
  ramInGB : Nat
  generateNetworkdScript : Bool
  generateNetworkManagerScript : Bool
  isEthernet : Bool

/-- The struct `TuningCalcs`, lines 117-124. -/
structure TuningCalcs where
  tcp_mss : Nat
  udp_mss : Nat
  aligned_tcp_mss : Nat
  aligned_udp_mss : Nat
  dlFramesPerSecond : Nat
  ulFramesPerSecond : Nat
deriving DecidableEq

/-- The struct `EthtoolSettings`, lines 128-134. -/
structure EthtoolSettings where
  txqueuelen : Nat
  rxFrameRingBufferSize : Nat
  txFrameRingBufferSize : Nat
  rxIntCoalescing : Nat
  txIntCoalescing : Nat
deriving DecidableEq

/-- The struct `SysctlSettings`, lines 138-160. -/
structure SysctlSettings where
  netdev_max_backlog : Nat
  tcp_limit_output_bytes : Nat
  tcp_max_tw_buckets : Nat
  rmem_default : Nat
  rmem_max : Nat
  wmem_default : Nat
  wmem_max : Nat
  tcp_rmem_min : Nat
  tcp_rmem_default : Nat
  tcp_rmem_max : Nat
  tcp_wmem_min : Nat
  tcp_wmem_default : Nat
  tcp_wmem_max : Nat
  udp_rmem_min : Nat
  udp_wmem_min : Nat
  tcp_mem_low : Nat
  tcp_mem_mid : Nat
  tcp_mem_max : Nat
  udp_mem_low : Nat
  udp_mem_mid : Nat
  udp_mem_max : Nat
deriving DecidableEq

/-- Line 390: `mtu - (TCP_HEADER_SIZE + IPV4_HEADER_SIZE)` in 32-bit unsigned
arithmetic. -/
def tcpMss {F : Type} (sizes : HeaderSizes) (tuningParams : TuningParams F) : Nat :=
  (tuningParams.mtu + UINT32_MOD
    - (sizes.TCP_HEADER_SIZE + sizes.IPV4_HEADER_SIZE) % UINT32_MOD) % UINT32_MOD

/-- Line 391: `mtu - (UDP_HEADER_SIZE + IPV4_HEADER_SIZE)` in 32-bit unsigned
arithmetic. -/
def udpMss {F : Type} (sizes : HeaderSizes) (tuningParams : TuningParams F) : Nat :=
  (tuningParams.mtu + UINT32_MOD
    - (sizes.UDP_HEADER_SIZE + sizes.IPV4_HEADER_SIZE) % UINT32_MOD) % UINT32_MOD

/-- The function `performTuningCalcs`, lines 389-398. The divisions of lines 393-394
have no result when the divisor is zero. -/
def performTuningCalcs {F : Type} (fl : FloatArith F) (sizes : HeaderSizes)
    (tuningParams : TuningParams F) : Option TuningCalcs :=
  if tcpMss sizes tuningParams = 0 ∨ udpMss sizes tuningParams = 0 then
    none
  else
    some
      { tcp_mss := tcpMss sizes tuningParams
        udp_mss := udpMss sizes tuningParams
        aligned_tcp_mss :=
          ((tuningParams.levelOneDCacheSize / tcpMss sizes tuningParams)
            * tcpMss sizes tuningParams) % UINT32_MOD
        aligned_udp_mss :=
          ((tuningParams.levelOneDCacheSize / udpMss sizes tuningParams)
            * udpMss sizes tuningParams) % UINT32_MOD
        dlFramesPerSecond :=
          fl.framesPerSecond tuningParams.downloadSpeed tuningParams.mtu % UINT32_MOD
        ulFramesPerSecond :=
          fl.framesPerSecond tuningParams.uploadSpeed tuningParams.mtu % UINT32_MOD }

/-- The expression `((x + 7) >> 3) << 3` of lines 307, 311, 315 and 320, on a
`uint32_t`. -/
def roundToEight (x : Nat) : Nat :=
  ((((x + 7) % UINT32_MOD) >>> 3) <<< 3) % UINT32_MOD

/-- The function `calcEthtoolSettings`, lines 301-316. `range` stands for
`f45efac2_range` of the integer library, which is not part of the sources at hand.
The divisions of lines 306 and 310 have no result when the divisor is zero. -/
def calcEthtoolSettings {F : Type} (fl : FloatArith F) (range : Nat → Nat → Nat → Nat)
    (tuningCalcs : TuningCalcs) (tuningParams : TuningParams F) : Option EthtoolSettings :=
  if tuningCalcs.dlFramesPerSecond = 0 ∨ tuningCalcs.ulFramesPerSecond = 0 then
    none
  else
    some
      { rxFrameRingBufferSize := 32
        txFrameRingBufferSize := 32
        rxIntCoalescing :=
          range (roundToEight ((5 * INT_COALESCING_BASE) / tuningCalcs.dlFramesPerSecond))
            32 10000 % UINT32_MOD
        txIntCoalescing :=
          range (roundToEight (INT_COALESCING_BASE / tuningCalcs.ulFramesPerSecond))
            32 10000 % UINT32_MOD
        txqueuelen :=
          roundToEight
            (fl.timesLatency tuningCalcs.ulFramesPerSecond tuningParams.acceptableLatency
              % UINT32_MOD) }

/-- Lines 324 and 330: `((queueLength * udp_mss) >> 4) / aligned_udp_mss`. -/
def rawFactor (queueLength udp_mss aligned_udp_mss : Nat) : Nat :=
  (((queueLength * udp_mss) % UINT32_MOD) >>> 4) / aligned_udp_mss

/-- Lines 326-328 and 332-334: `if (factor == 0 || (factor & 0x01) == 1) factor++`. -/
def adjustFactor (factor : Nat) : Nat :=
  if factor = 0 ∨ factor &&& 1 = 1 then (factor + 1) % UINT32_MOD else factor

/-- Line 319-320: the receive queue length. -/
def netdevMaxBacklog {F : Type} (fl : FloatArith F) (tuningCalcs : TuningCalcs)
    (tuningParams : TuningParams F) : Nat :=
  roundToEight
    (fl.timesLatency tuningCalcs.dlFramesPerSecond tuningParams.acceptableLatency
      % UINT32_MOD)

/-- The local variable `rx_factor` after line 328. -/
def rxFactor {F : Type} (fl : FloatArith F) (tuningCalcs : TuningCalcs)
    (tuningParams : TuningParams F) : Nat :=
  adjustFactor (rawFactor (netdevMaxBacklog fl tuningCalcs tuningParams)
    tuningCalcs.udp_mss tuningCalcs.aligned_udp_mss)

/-- The local variable `tx_factor` after line 334. -/
def txFactor (ethtoolSettings : EthtoolSettings) (tuningCalcs : TuningCalcs) : Nat :=
  adjustFactor (rawFactor ethtoolSettings.txqueuelen
    tuningCalcs.udp_mss tuningCalcs.aligned_udp_mss)

/-- Lines 356 and 360: `((rmax + wmax + 32768) / pageSize) << 6`. -/
def memLow (rmax wmax pageSize : Nat) : Nat :=
  ((((rmax + wmax + 32768) % UINT32_MOD) / pageSize) <<< 6) % UINT32_MOD

/-- The function `calcSysctlSettings`, lines 318-363. The divisions by
`aligned_udp_mss` and by `pageSize` have no result when the divisor is zero. The
field `tcp_max_tw_buckets` is not assigned by the function; it appears as `0`. -/
def calcSysctlSettings {F : Type} (fl : FloatArith F) (ethtoolSettings : EthtoolSettings)
    (tuningCalcs : TuningCalcs) (tuningParams : TuningParams F) : Option SysctlSettings :=
  if tuningCalcs.aligned_udp_mss = 0 ∨ tuningParams.pageSize = 0 then
    none
  else
    let rx_factor := rxFactor fl tuningCalcs tuningParams
    let tx_factor := txFactor ethtoolSettings tuningCalcs
    let rmem_default := (rx_factor * tuningCalcs.aligned_udp_mss) % UINT32_MOD
    let wmem_default := (tx_factor * tuningCalcs.aligned_udp_mss) % UINT32_MOD
    let tcp_rmem_default := (rx_factor * tuningCalcs.aligned_tcp_mss) % UINT32_MOD
    let tcp_wmem_default := (tx_factor * tuningCalcs.aligned_tcp_mss) % UINT32_MOD
    let rmem_max := (rmem_default <<< 3) % UINT32_MOD
    let wmem_max := (wmem_default <<< 3) % UINT32_MOD
    let tcp_rmem_max := (tcp_rmem_default <<< 3) % UINT32_MOD
    let tcp_wmem_max := (tcp_wmem_default <<< 3) % UINT32_MOD
    let tcp_mem_low := memLow tcp_rmem_max tcp_wmem_max tuningParams.pageSize
    let udp_mem_low := memLow rmem_max wmem_max tuningParams.pageSize
    some
      { netdev_max_backlog := netdevMaxBacklog fl tuningCalcs tuningParams
        tcp_limit_output_bytes :=
          (ethtoolSettings.txqueuelen * tuningCalcs.tcp_mss) % UINT32_MOD
        tcp_max_tw_buckets := 0
        rmem_default := rmem_default
        rmem_max := rmem_max
        udp_rmem_min := rmem_default >>> 1
        wmem_default := wmem_default
        wmem_max := wmem_max
        udp_wmem_min := wmem_default >>> 1
        tcp_rmem_default := tcp_rmem_default
        tcp_rmem_min := tcp_rmem_default >>> 1
        tcp_rmem_max := tcp_rmem_max
        tcp_wmem_default := tcp_wmem_default
        tcp_wmem_min := tcp_wmem_default >>> 1
        tcp_wmem_max := tcp_wmem_max
        tcp_mem_low := tcp_mem_low
        tcp_mem_mid := fl.times1375 tcp_mem_low % UINT32_MOD
        tcp_mem_max := (tcp_mem_low <<< 1) % UINT32_MOD
        udp_mem_low := udp_mem_low
        udp_mem_mid := fl.times1375 udp_mem_low % UINT32_MOD
        udp_mem_max := (udp_mem_low <<< 1) % UINT32_MOD }

/-- A function that clamps its first argument into `[lo, hi]`. -/
def clampRange (value lo hi : Nat) : Nat :=
  if value < lo then lo else if hi < value then hi else value

/-- Sample float arithmetic on rational speeds and latencies, results truncated. -/
def sampleFloat : FloatArith ℚ where
  framesPerSecond := fun speed mtu => ((speed * 125000) / mtu).floor.toNat
  timesLatency := fun frames latency => (frames * latency).floor.toNat
  times1375 := fun pages => pages * 11 / 8

/-- Header sizes of TCP (20), UDP (8) and IPv4 (20) without options. -/
def sampleSizes : HeaderSizes :=
  { TCP_HEADER_SIZE := 20, UDP_HEADER_SIZE := 8, IPV4_HEADER_SIZE := 20 }

/-- A gigabit interface with MTU 1500 on a machine with a 32 KiB level 1 data cache
and 4 KiB pages. -/
def sampleParams : TuningParams ℚ :=
  { deviceName := "enp4s0", levelOneDCacheSize := 32768, numCpus := 8, pageSize := 4096,
    downloadSpeed := 1000, uploadSpeed := 1000, acceptableLatency := 1 / 10, mtu := 1500,
    ramInGB := 16, generateNetworkdScript := false, generateNetworkManagerScript := true,
    isEthernet := true }

/-- The calculations for `sampleParams`: 83333 frames per second in each direction. -/
def sampleCalcs : TuningCalcs :=
  { tcp_mss := 1460, udp_mss := 1472, aligned_tcp_mss := 32120, aligned_udp_mss := 32384,
    dlFramesPerSecond := 83333, ulFramesPerSecond := 83333 }

/-- Ethtool settings for `sampleCalcs` with a transmit queue of 8336 packets. -/
def sampleEthtool : EthtoolSettings :=
  { txqueuelen := 8336, rxFrameRingBufferSize := 32, txFrameRingBufferSize := 32,
    rxIntCoalescing := 64, txIntCoalescing := 32 }

end Nettuner

/-!
Selection of OpenDocument files (odfgrep).

Shallow embedding of `findODFFiles` of `C/src/odfgrep.c`. A file name is the list of
its characters in front of the terminating NUL.
-/

namespace Odfgrep

/-- The character `filename[i]` of a NUL-terminated string: the terminator at the
end (the code never reads beyond it). -/
def charAt (filename : List Char) (i : Nat) : Char :=
  filename.getD i (Char.ofNat 0)

/-- The function `findODFFiles`, lines 144-152. `findLastChar` stands for
`f6215943_findLastChar` of the string library, which is not part of the sources at
hand; `none` is its `NULL` result and `some i` is the pointer `filename + i`. -/
def findODFFiles (findLastChar : List Char → Char → Option Nat) (filename : String) : Bool :=
  match findLastChar filename.data '.' with
  | none => false
  | some extension =>
    extension != 0
      && charAt filename.data (extension + 1) == 'o'
      && charAt filename.data (extension + 2) == 'd'
      && (charAt filename.data (extension + 3) == 't'
          || charAt filename.data (extension + 3) == 's'
          || charAt filename.data (extension + 3) == 'p')

/-- Position of the last occurrence of a character in a string, if there is one. -/
def lastIndexOf : List Char → Char → Option Nat
  | [], _ => none
  | x :: rest, c =>
    match lastIndexOf rest c with
    | some i => some (i + 1)
    | none => if x = c then some 0 else none

/-- What is assumed of `f6215943_findLastChar`: its result is the position of the
last occurrence of the character, and `NULL` when the character does not occur. -/
def FindsLastChar (findLastChar : List Char → Char → Option Nat) : Prop :=
  ∀ (s : List Char) (c : Char),
    (findLastChar s c = none ↔ c ∉ s)
    ∧ ∀ i : Nat, findLastChar s c = some i ↔
        (s[i]? = some c ∧ ∀ j : Nat, i < j → s[j]? ≠ some c)

end Odfgrep

namespace Firelog

/-! ## Basic lemmas -/

theorem filterInputScan_eq_scanWith (logLine : LogLine) (l : List LogLine) :
    filterInputScan logLine l = scanWith inputEntryMatches logLine l := by
  induction l with
  | nil => rfl
  | cons e rest ih => simp [filterInputScan, scanWith, ih, bumpCount]

theorem filterOutputScan_eq_scanWith (logLine : LogLine) (l : List LogLine) :
    filterOutputScan logLine l = scanWith outputEntryMatches logLine l := by
  induction l with
  | nil => rfl
  | cons e rest ih => simp [filterOutputScan, scanWith, ih, bumpCount]

theorem filterInputLogLine_eq_recordWith :
    filterInputLogLine = recordWith inputEntryMatches := by
  funext l logLine
  simp [filterInputLogLine, recordWith, filterInputScan_eq_scanWith, b196167f_add,
    b45c9f7e_cloneLogLine]

theorem filterOutputLogLine_eq_recordWith :
    filterOutputLogLine = recordWith outputEntryMatches := by
  funext l logLine
  simp [filterOutputLogLine, recordWith, filterOutputScan_eq_scanWith, b196167f_add,
    b45c9f7e_cloneLogLine]

theorem inputEntryMatches_iff (e r : LogLine) :
    inputEntryMatches e r = true ↔
      (e.in_ = r.in_ ∧ e.out = r.out ∧ e.macAddress = r.macAddress
        ∧ e.sourceIPAddr = r.sourceIPAddr ∧ e.protocol = r.protocol
        ∧ (e.sourcePort = r.sourcePort ∨ e.destPort = r.destPort)) := by
  simp [inputEntryMatches, f6215943_isEqual, and_assoc]

theorem outputEntryMatches_iff (e r : LogLine) :
    outputEntryMatches e r = true ↔
      (e.in_ = r.in_ ∧ e.out = r.out ∧ e.destIPAddr = r.destIPAddr
        ∧ e.protocol = r.protocol ∧ e.destPort = r.destPort) := by
  simp [outputEntryMatches, f6215943_isEqual, and_assoc]


/-! ## The generic scan -/

theorem withoutCount_bumpCount (e : LogLine) : withoutCount (bumpCount e) = withoutCount e := rfl

theorem scanWith_eq_none_iff (cond : LogLine → LogLine → Bool) (r : LogLine) (l : List LogLine) :
    scanWith cond r l = none ↔ ∀ e ∈ l, cond e r = false := by
  induction l with
  | nil => simp [scanWith]
  | cons e rest ih =>
    by_cases h : cond e r = true
    · simp [scanWith, h]
    · simp [scanWith, h, ih]

theorem scanWith_eq_some (cond : LogLine → LogLine → Bool) (r : LogLine) :
    ∀ (l u : List LogLine), scanWith cond r l = some u →
      ∃ i e, l[i]? = some e ∧ cond e r = true
        ∧ (∀ j a, j < i → l[j]? = some a → cond a r = false)
        ∧ u = l.set i (bumpCount e) := by
  intro l
  induction l with
  | nil => intro u h; simp [scanWith] at h
  | cons e rest ih =>
    intro u h
    by_cases hc : cond e r = true
    · simp [scanWith, hc] at h
      refine ⟨0, e, by simp, hc, ?_, ?_⟩
      · intro j a hj; omega
      · simp [h]
    · simp [scanWith, hc] at h
      obtain ⟨u', hu', rfl⟩ := h
      obtain ⟨i, e', hi, hce, hmin, hset⟩ := ih u' hu'
      refine ⟨i + 1, e', by simpa using hi, hce, ?_, ?_⟩
      · intro j a hj hja
        cases j with
        | zero =>
          simp at hja
          subst hja
          simpa using hc
        | succ k =>
          simp at hja
          exact hmin k a (by omega) hja
      · simp [hset]

theorem recordWith_of_match (cond : LogLine → LogLine → Bool) (l : List LogLine) (r : LogLine)
    (h : ∃ e ∈ l, cond e r = true) :
    ∃ i e, l[i]? = some e ∧ cond e r = true
      ∧ (∀ j a, j < i → l[j]? = some a → cond a r = false)
      ∧ recordWith cond l r = l.set i (bumpCount e) := by
  cases hs : scanWith cond r l with
  | none =>
    obtain ⟨e, he, hce⟩ := h
    have := (scanWith_eq_none_iff cond r l).1 hs e he
    simp [this] at hce
  | some u =>
    obtain ⟨i, e, hi, hce, hmin, hset⟩ := scanWith_eq_some cond r l u hs
    exact ⟨i, e, hi, hce, hmin, by simp [recordWith, hs, hset]⟩

theorem recordWith_of_no_match (cond : LogLine → LogLine → Bool) (l : List LogLine) (r : LogLine)
    (h : ∀ e ∈ l, cond e r = false) :
    recordWith cond l r = l ++ [{ r with count := 1 }] := by
  have hs := (scanWith_eq_none_iff cond r l).2 h
  simp [recordWith, hs]

/-! ## The match predicates -/

/-- C1: the test `filterInputLogLine` applies to a stored entry `e` and a new record
`r` succeeds exactly when `in`, `out`, `macAddress`, `sourceIPAddr` and `protocol` are
equal and `sourcePort` or `destPort` is equal; on the one-entry list `[e]` the
routine bumps `e` instead of adding `r` exactly in that case; `destIPAddr` and
`count` of either record never change the outcome of the test. -/
theorem C1_inbound_match_predicate (e r : LogLine) :
    (inputEntryMatches e r = true ↔
      (e.in_ = r.in_ ∧ e.out = r.out ∧ e.macAddress = r.macAddress
        ∧ e.sourceIPAddr = r.sourceIPAddr ∧ e.protocol = r.protocol
        ∧ (e.sourcePort = r.sourcePort ∨ e.destPort = r.destPort)))
    ∧ (filterInputLogLine [e] r = [{ e with count := (e.count + 1) % UINT32_MOD }] ↔
      (e.in_ = r.in_ ∧ e.out = r.out ∧ e.macAddress = r.macAddress
        ∧ e.sourceIPAddr = r.sourceIPAddr ∧ e.protocol = r.protocol
        ∧ (e.sourcePort = r.sourcePort ∨ e.destPort = r.destPort)))
    ∧ (∀ (d d' : String) (c c' : Nat),
        inputEntryMatches { e with destIPAddr := d, count := c }
            { r with destIPAddr := d', count := c' }
          = inputEntryMatches e r) := by
  refine ⟨inputEntryMatches_iff e r, ?_, ?_⟩
  · rw [← inputEntryMatches_iff]
    by_cases h : inputEntryMatches e r = true
    · simp [filterInputLogLine, filterInputScan, h]
    · simp [filterInputLogLine, filterInputScan, h, b196167f_add]
  · intro d d' c c'
    rfl

/-- C2: the test `filterOutputLogLine` applies to a stored entry `e` and a new record
`r` succeeds exactly when `in`, `out`, `destIPAddr`, `protocol` and `destPort` are
equal; on the one-entry list `[e]` the routine bumps `e` instead of adding `r`
exactly in that case; `sourcePort`, `sourceIPAddr`, `macAddress` and `count` of
either record never change the outcome of the test. -/
theorem C2_outbound_match_predicate (e r : LogLine) :
    (outputEntryMatches e r = true ↔
      (e.in_ = r.in_ ∧ e.out = r.out ∧ e.destIPAddr = r.destIPAddr
        ∧ e.protocol = r.protocol ∧ e.destPort = r.destPort))
    ∧ (filterOutputLogLine [e] r = [{ e with count := (e.count + 1) % UINT32_MOD }] ↔
      (e.in_ = r.in_ ∧ e.out = r.out ∧ e.destIPAddr = r.destIPAddr
        ∧ e.protocol = r.protocol ∧ e.destPort = r.destPort))
    ∧ (∀ (p p' : Nat) (s s' m m' : String) (c c' : Nat),
        outputEntryMatches
            { e with sourcePort := p, sourceIPAddr := s, macAddress := m, count := c }
            { r with sourcePort := p', sourceIPAddr := s', macAddress := m', count := c' }
          = outputEntryMatches e r) := by
  refine ⟨outputEntryMatches_iff e r, ?_, ?_⟩
  · rw [← outputEntryMatches_iff]
    by_cases h : outputEntryMatches e r = true
    · simp [filterOutputLogLine, filterOutputScan, h]
    · simp [filterOutputLogLine, filterOutputScan, h, b196167f_add]
  · intro p p' s s' m m' c c'
    rfl

/-! ## One step of aggregation -/

theorem recordEvent_eq_recordWith (d : Direction) :
    recordEvent d = recordWith (policyMatches d) := by
  cases d
  · exact filterInputLogLine_eq_recordWith
  · exact filterOutputLogLine_eq_recordWith

/-- C3 (as amended): when the record `r` matches at least one entry of the list of
direction `d`, recording `r` replaces the lowest-index matching entry `e` by `e`
with `count` set to `(e.count + 1) mod 2^32` (so incremented by exactly 1 unless
`e.count + 1` reaches `2^32`), and changes nothing else: the length, every other
entry (later matching ones included) and all other fields of `e` are as before. -/
theorem C3_first_match_bumped (d : Direction) (l : List LogLine) (r : LogLine)
    (h : ∃ e ∈ l, policyMatches d e r = true) :
    ∃ i e, l[i]? = some e ∧ policyMatches d e r = true
      ∧ (∀ j a, j < i → l[j]? = some a → policyMatches d a r = false)
      ∧ recordEvent d l r = l.set i { e with count := (e.count + 1) % UINT32_MOD }
      ∧ (e.count + 1 < UINT32_MOD →
          recordEvent d l r = l.set i { e with count := e.count + 1 })
      ∧ (recordEvent d l r).length = l.length := by
  obtain ⟨i, e, hi, hce, hmin, hset⟩ := recordWith_of_match (policyMatches d) l r h
  rw [recordEvent_eq_recordWith]
  refine ⟨i, e, hi, hce, hmin, hset, ?_, ?_⟩
  · intro hlt
    rw [hset, bumpCount, Nat.mod_eq_of_lt hlt]
  · rw [hset, List.length_set]

/-- Witness of C3: in the inbound list `[otherHost, A1, A2]` the record `A2` matches the
entries at positions 1 and 2; position 1 is bumped. -/
theorem C3_first_match_bumped_witness :
    (∃ e ∈ [otherHost, scenarioA1, scenarioA2],
        policyMatches Direction.Inbound e scenarioA2 = true)
    ∧ ∃ i e, [otherHost, scenarioA1, scenarioA2][i]? = some e
      ∧ policyMatches Direction.Inbound e scenarioA2 = true
      ∧ (∀ j a, j < i → [otherHost, scenarioA1, scenarioA2][j]? = some a →
          policyMatches Direction.Inbound a scenarioA2 = false)
      ∧ recordEvent Direction.Inbound [otherHost, scenarioA1, scenarioA2] scenarioA2
          = [otherHost, scenarioA1, scenarioA2].set i
              { e with count := (e.count + 1) % UINT32_MOD }
      ∧ (e.count + 1 < UINT32_MOD →
          recordEvent Direction.Inbound [otherHost, scenarioA1, scenarioA2] scenarioA2
            = [otherHost, scenarioA1, scenarioA2].set i { e with count := e.count + 1 })
      ∧ (recordEvent Direction.Inbound [otherHost, scenarioA1, scenarioA2]
          scenarioA2).length = [otherHost, scenarioA1, scenarioA2].length :=
  ⟨⟨scenarioA1, by decide, by decide⟩,
    C3_first_match_bumped Direction.Inbound [otherHost, scenarioA1, scenarioA2] scenarioA2
      ⟨scenarioA1, by decide, by decide⟩⟩

/-- Counterexample to C3 as stated: the stored entry has `count = 4294967295` and
matches the record; after recording, its count is `0`, not `4294967296`. -/
theorem C3_counterexample_count_wraps :
    policyMatches Direction.Inbound saturatedEntry scenarioA2 = true
    ∧ saturatedEntry.count = 4294967295
    ∧ recordEvent Direction.Inbound [saturatedEntry] scenarioA2
        = [{ saturatedEntry with count := 0 }]
    ∧ recordEvent Direction.Inbound [saturatedEntry] scenarioA2
        ≠ [{ saturatedEntry with count := saturatedEntry.count + 1 }] := by
  decide

/-- C4: when the record `r` matches no entry of the list of direction `d`, recording
`r` yields the old list followed by one new entry, which has the fields of `r` and
`count = 1`. -/
theorem C4_no_match_appends (d : Direction) (l : List LogLine) (r : LogLine)
    (h : ∀ e ∈ l, policyMatches d e r = false) :
    recordEvent d l r = l ++ [{ r with count := 1 }] := by
  rw [recordEvent_eq_recordWith]
  exact recordWith_of_no_match (policyMatches d) l r h

/-- Witness of C4: the outbound list `[C1]` and the record `D2` (other `DPT`). -/
theorem C4_no_match_appends_witness :
    (∀ e ∈ [scenarioC1], policyMatches Direction.Outbound e scenarioD2 = false)
    ∧ recordEvent Direction.Outbound [scenarioC1] scenarioD2
        = [scenarioC1] ++ [{ scenarioD2 with count := 1 }] :=
  ⟨by decide, C4_no_match_appends Direction.Outbound [scenarioC1] scenarioD2 (by decide)⟩

/-! ## Keys and the store invariant -/

theorem scanWith_some_keys (cond : LogLine → LogLine → Bool) (r : LogLine) :
    ∀ (l u : List LogLine), scanWith cond r l = some u →
      u.map withoutCount = l.map withoutCount := by
  intro l u h
  obtain ⟨i, e, hi, -, -, rfl⟩ := scanWith_eq_some cond r l u h
  apply List.ext_getElem?
  intro n
  by_cases hn : i = n
  · subst hn
    have hlt : i < l.length := by
      rcases Nat.lt_or_ge i l.length with h' | h'
      · exact h'
      · rw [List.getElem?_eq_none h'] at hi; cases hi
    obtain ⟨-, rfl⟩ := List.getElem?_eq_some.1 hi
    simp [List.getElem?_map, List.getElem?_set, hlt, withoutCount_bumpCount]
  · simp [List.getElem?_map, List.getElem?_set, hn]

theorem recordWith_keys (cond : LogLine → LogLine → Bool) (l : List LogLine) (r : LogLine) :
    (recordWith cond l r).map withoutCount = l.map withoutCount
    ∨ ((∀ e ∈ l, cond e r = false)
        ∧ recordWith cond l r = l ++ [{ r with count := 1 }]) := by
  cases hs : scanWith cond r l with
  | none =>
    right
    have hno := (scanWith_eq_none_iff cond r l).1 hs
    exact ⟨hno, recordWith_of_no_match cond l r hno⟩
  | some u =>
    left
    simpa [recordWith, hs] using scanWith_some_keys cond r l u hs

theorem pairwise_recordWith (cond : LogLine → LogLine → Bool) (hkey : IgnoresCount cond)
    (l : List LogLine) (r : LogLine)
    (hl : l.Pairwise (fun a b => cond a b = false)) :
    (recordWith cond l r).Pairwise (fun a b => cond a b = false) := by
  have hmap : ∀ l' : List LogLine, l'.Pairwise (fun a b => cond a b = false) ↔
      (l'.map withoutCount).Pairwise (fun a b => cond a b = false) := by
    intro l'
    rw [List.pairwise_map]
    constructor <;> intro hp <;> refine hp.imp ?_ <;> intro a b hab
    · rw [← hkey]; exact hab
    · rw [hkey]; exact hab
  rcases recordWith_keys cond l r with hk | ⟨hno, heq⟩
  · rw [hmap, hk, ← hmap]; exact hl
  · rw [heq, List.pairwise_append]
    refine ⟨hl, List.pairwise_singleton _ _, ?_⟩
    intro a ha b hb
    simp only [List.mem_singleton] at hb
    subst hb
    have := hno a ha
    rw [hkey] at this ⊢
    exact this

theorem noTwoMatch_of_pairwise (cond : LogLine → LogLine → Bool)
    (hsymm : ∀ a b, cond a b = cond b a) (l : List LogLine)
    (hl : l.Pairwise (fun a b => cond a b = false)) : NoTwoMatch cond l := by
  rw [List.pairwise_iff_getElem] at hl
  intro i j a b hij hi hj
  obtain ⟨hi', rfl⟩ := List.getElem?_eq_some.1 hi
  obtain ⟨hj', rfl⟩ := List.getElem?_eq_some.1 hj
  rcases Nat.lt_or_gt_of_ne hij with h | h
  · exact hl i j hi' hj' h
  · rw [hsymm]; exact hl j i hj' hi' h

theorem pairwise_foldl_recordWith (cond : LogLine → LogLine → Bool) (hkey : IgnoresCount cond)
    (logLines : List LogLine) :
    ∀ l : List LogLine, l.Pairwise (fun a b => cond a b = false) →
      (logLines.foldl (recordWith cond) l).Pairwise (fun a b => cond a b = false) := by
  induction logLines with
  | nil => intro l hl; exact hl
  | cons r rest ih =>
    intro l hl
    exact ih _ (pairwise_recordWith cond hkey l r hl)

theorem inputEntryMatches_ignoresCount : IgnoresCount inputEntryMatches := fun _ _ => rfl

theorem outputEntryMatches_ignoresCount : IgnoresCount outputEntryMatches := fun _ _ => rfl

theorem inputEntryMatches_symm (a b : LogLine) :
    inputEntryMatches a b = inputEntryMatches b a := by
  rw [Bool.eq_iff_iff, inputEntryMatches_iff, inputEntryMatches_iff]
  constructor <;> rintro ⟨h1, h2, h3, h4, h5, h6⟩ <;>
    exact ⟨h1.symm, h2.symm, h3.symm, h4.symm, h5.symm, h6.imp Eq.symm Eq.symm⟩

theorem outputEntryMatches_symm (a b : LogLine) :
    outputEntryMatches a b = outputEntryMatches b a := by
  rw [Bool.eq_iff_iff, outputEntryMatches_iff, outputEntryMatches_iff]
  constructor <;> rintro ⟨h1, h2, h3, h4, h5⟩ <;>
    exact ⟨h1.symm, h2.symm, h3.symm, h4.symm, h5.symm⟩

theorem processLogLine_inv (P Q : List LogLine → Prop)
    (hP : ∀ l r, P l → P (filterInputLogLine l r))
    (hQ : ∀ l r, Q l → Q (filterOutputLogLine l r)) (logLines : List LogLine) :
    ∀ stores : Stores, P stores.inputLogLineList → Q stores.outputLogLineList →
      P (logLines.foldl processLogLine stores).inputLogLineList
        ∧ Q (logLines.foldl processLogLine stores).outputLogLineList := by
  induction logLines with
  | nil => intro stores h1 h2; exact ⟨h1, h2⟩
  | cons r rest ih =>
    intro stores h1 h2
    rw [List.foldl_cons]
    by_cases hin : r.in_ ≠ ""
    · apply ih
      · simpa [processLogLine, hin] using hP _ r h1
      · simpa [processLogLine, hin] using h2
    · apply ih
      · simpa [processLogLine, hin] using h1
      · simpa [processLogLine, hin] using hQ _ r h2

/-- C5: after any finite sequence of records has been recorded from empty lists,
no two distinct entries of the inbound list match each other under the inbound
test, and no two distinct entries of the outbound list match each other under the
outbound test. This holds for each routine fed directly and for the two lists
`main` builds through its dispatch. -/
theorem C5_store_invariant (logLines : List LogLine) :
    NoTwoMatch inputEntryMatches (logLines.foldl filterInputLogLine [])
    ∧ NoTwoMatch outputEntryMatches (logLines.foldl filterOutputLogLine [])
    ∧ NoTwoMatch inputEntryMatches (processLog logLines).inputLogLineList
    ∧ NoTwoMatch outputEntryMatches (processLog logLines).outputLogLineList := by
  refine ⟨?_, ?_, ?_, ?_⟩
  · apply noTwoMatch_of_pairwise _ inputEntryMatches_symm
    rw [filterInputLogLine_eq_recordWith]
    exact pairwise_foldl_recordWith _ inputEntryMatches_ignoresCount _ _ List.Pairwise.nil
  · apply noTwoMatch_of_pairwise _ outputEntryMatches_symm
    rw [filterOutputLogLine_eq_recordWith]
    exact pairwise_foldl_recordWith _ outputEntryMatches_ignoresCount _ _ List.Pairwise.nil
  · apply noTwoMatch_of_pairwise _ inputEntryMatches_symm
    refine (processLogLine_inv (fun l => l.Pairwise (fun a b => inputEntryMatches a b = false))
      (fun _ => True) ?_ (fun _ _ _ => trivial) logLines _ List.Pairwise.nil trivial).1
    intro l r hl
    rw [filterInputLogLine_eq_recordWith]
    exact pairwise_recordWith _ inputEntryMatches_ignoresCount l r hl
  · apply noTwoMatch_of_pairwise _ outputEntryMatches_symm
    refine (processLogLine_inv (fun _ => True)
      (fun l => l.Pairwise (fun a b => outputEntryMatches a b = false))
      (fun _ _ _ => trivial) ?_ logLines _ trivial List.Pairwise.nil).2
    intro l r hl
    rw [filterOutputLogLine_eq_recordWith]
    exact pairwise_recordWith _ outputEntryMatches_ignoresCount l r hl

/-! ## First-seen order and counts along a run -/

theorem foldl_rel {σ : Type} (f : σ → LogLine → σ) (Rel : σ → σ → Prop)
    (hrefl : ∀ s, Rel s s) (htrans : ∀ a b c, Rel a b → Rel b c → Rel a c)
    (hstep : ∀ s r, Rel s (f s r)) (logLines : List LogLine) :
    ∀ s, Rel s (logLines.foldl f s) := by
  induction logLines with
  | nil => intro s; exact hrefl s
  | cons r rest ih => intro s; exact htrans _ _ _ (hstep s r) (ih (f s r))

theorem foldl_bound {σ : Type} (f : σ → LogLine → σ) (Bound : Nat → σ → Prop)
    (hb : ∀ n s r, Bound n s → Bound (n + 1) (f s r)) (logLines : List LogLine) :
    ∀ n s, Bound n s → Bound (n + logLines.length) (logLines.foldl f s) := by
  induction logLines with
  | nil => intro n s h; exact h
  | cons r rest ih =>
    intro n s h
    have := ih (n + 1) (f s r) (hb n s r h)
    rw [List.length_cons, List.foldl_cons]
    rwa [Nat.add_assoc, Nat.add_comm 1] at this

theorem foldl_rel_of_bound {σ : Type} (f : σ → LogLine → σ) (Bound : Nat → σ → Prop)
    (Rel : σ → σ → Prop) (M : Nat)
    (hrefl : ∀ s, Rel s s) (htrans : ∀ a b c, Rel a b → Rel b c → Rel a c)
    (hb : ∀ n s r, Bound n s → Bound (n + 1) (f s r))
    (hm : ∀ n s r, Bound n s → n + 1 < M → Rel s (f s r)) (logLines : List LogLine) :
    ∀ n s, Bound n s → n + logLines.length < M → Rel s (logLines.foldl f s) := by
  induction logLines with
  | nil => intro n s _ _; exact hrefl s
  | cons r rest ih =>
    intro n s h hlen
    rw [List.length_cons] at hlen
    refine htrans _ _ _ (hm n s r h (by omega)) (ih (n + 1) (f s r) (hb n s r h) (by omega))

theorem keysPrefix_refl (l : List LogLine) : KeysPrefix l l := List.prefix_refl _

theorem keysPrefix_trans (a b c : List LogLine) (h1 : KeysPrefix a b) (h2 : KeysPrefix b c) :
    KeysPrefix a c := List.IsPrefix.trans h1 h2

theorem keysPrefix_recordWith (cond : LogLine → LogLine → Bool) (l : List LogLine)
    (r : LogLine) : KeysPrefix l (recordWith cond l r) := by
  unfold KeysPrefix
  rcases recordWith_keys cond l r with hk | ⟨-, heq⟩
  · rw [hk]
  · rw [heq, List.map_append]; exact List.prefix_append _ _

theorem countsGrow_refl (l : List LogLine) : CountsGrow l l :=
  fun _ a h => ⟨a, h, Nat.le_refl _⟩

theorem countsGrow_trans (a b c : List LogLine) (h1 : CountsGrow a b) (h2 : CountsGrow b c) :
    CountsGrow a c := by
  unfold CountsGrow at *
  intro i x hx
  obtain ⟨y, hy, hxy⟩ := h1 i x hx
  obtain ⟨z, hz, hyz⟩ := h2 i y hy
  exact ⟨z, hz, Nat.le_trans hxy hyz⟩

theorem countsAtMost_recordWith (cond : LogLine → LogLine → Bool) (n : Nat)
    (l : List LogLine) (r : LogLine) (h : CountsAtMost n l) :
    CountsAtMost (n + 1) (recordWith cond l r) := by
  by_cases hm : ∃ e ∈ l, cond e r = true
  · obtain ⟨i, e, hi, -, -, hset⟩ := recordWith_of_match cond l r hm
    intro x hx
    rw [hset] at hx
    rcases List.mem_or_eq_of_mem_set hx with hx | rfl
    · exact Nat.le_succ_of_le (h x hx)
    · have hle := h e (List.getElem?_mem hi)
      have : (e.count + 1) % UINT32_MOD ≤ e.count + 1 := Nat.mod_le _ _
      show (e.count + 1) % UINT32_MOD ≤ n + 1
      omega
  · have hno : ∀ e ∈ l, cond e r = false := by
      intro e he
      cases hc : cond e r with
      | false => rfl
      | true => exact absurd ⟨e, he, hc⟩ hm
    rw [recordWith_of_no_match cond l r hno]
    intro x hx
    rcases List.mem_append.1 hx with hx | hx
    · exact Nat.le_succ_of_le (h x hx)
    · simp only [List.mem_singleton] at hx
      subst hx
      show 1 ≤ n + 1
      omega

theorem countsGrow_recordWith (cond : LogLine → LogLine → Bool) (n : Nat)
    (l : List LogLine) (r : LogLine) (h : CountsAtMost n l) (hn : n + 1 < UINT32_MOD) :
    CountsGrow l (recordWith cond l r) := by
  by_cases hm : ∃ e ∈ l, cond e r = true
  · obtain ⟨i, e, hi, -, -, hset⟩ := recordWith_of_match cond l r hm
    unfold CountsGrow
    intro j a hj
    rw [hset]
    obtain ⟨hjlt, rfl⟩ := List.getElem?_eq_some.1 hj
    by_cases hij : i = j
    · subst hij
      obtain ⟨-, rfl⟩ := List.getElem?_eq_some.1 hi
      refine ⟨bumpCount l[i], by simp [List.getElem?_set, hjlt], ?_⟩
      have hle := h l[i] (List.getElem_mem _)
      show l[i].count ≤ (l[i].count + 1) % UINT32_MOD
      rw [Nat.mod_eq_of_lt (by omega)]
      omega
    · exact ⟨l[j], by simp [List.getElem?_set, hij, hjlt], Nat.le_refl _⟩
  · have hno : ∀ e ∈ l, cond e r = false := by
      intro e he
      cases hc : cond e r with
      | false => rfl
      | true => exact absurd ⟨e, he, hc⟩ hm
    rw [recordWith_of_no_match cond l r hno]
    unfold CountsGrow
    intro j a hj
    obtain ⟨hjlt, rfl⟩ := List.getElem?_eq_some.1 hj
    exact ⟨l[j], by simp [List.getElem?_append_left hjlt], Nat.le_refl _⟩

theorem countsAtMost_succ (n : Nat) (l : List LogLine) (h : CountsAtMost n l) :
    CountsAtMost (n + 1) l := fun e he => Nat.le_succ_of_le (h e he)

theorem processLogLine_cases (stores : Stores) (r : LogLine) :
    (processLogLine stores r
        = { inputLogLineList := recordWith inputEntryMatches stores.inputLogLineList r,
            outputLogLineList := stores.outputLogLineList })
    ∨ (processLogLine stores r
        = { inputLogLineList := stores.inputLogLineList,
            outputLogLineList := recordWith outputEntryMatches stores.outputLogLineList r }) := by
  by_cases hin : r.in_ ≠ ""
  · left; simp [processLogLine, hin, filterInputLogLine_eq_recordWith]
  · right; simp [processLogLine, hin, filterOutputLogLine_eq_recordWith]

theorem keysPrefix_foldl_recordWith (cond : LogLine → LogLine → Bool)
    (pre suf : List LogLine) :
    KeysPrefix (pre.foldl (recordWith cond) []) ((pre ++ suf).foldl (recordWith cond) []) := by
  rw [List.foldl_append]
  exact foldl_rel (recordWith cond) KeysPrefix keysPrefix_refl keysPrefix_trans
    (fun s r => keysPrefix_recordWith cond s r) suf _

theorem countsGrow_foldl_recordWith (cond : LogLine → LogLine → Bool)
    (pre suf : List LogLine) (hlen : (pre ++ suf).length < UINT32_MOD) :
    CountsGrow (pre.foldl (recordWith cond) []) ((pre ++ suf).foldl (recordWith cond) []) := by
  rw [List.foldl_append]
  rw [List.length_append] at hlen
  have hb : CountsAtMost (0 + pre.length) (pre.foldl (recordWith cond) []) :=
    foldl_bound (recordWith cond) CountsAtMost
      (fun n s r h => countsAtMost_recordWith cond n s r h) pre 0 []
      (fun e he => absurd he (List.not_mem_nil e))
  exact foldl_rel_of_bound (recordWith cond) CountsAtMost CountsGrow UINT32_MOD
    countsGrow_refl countsGrow_trans
    (fun n s r h => countsAtMost_recordWith cond n s r h)
    (fun n s r h hn => countsGrow_recordWith cond n s r h hn) suf _ _ hb (by omega)

theorem keysPrefix_processLog (pre suf : List LogLine) :
    KeysPrefix (processLog pre).inputLogLineList (processLog (pre ++ suf)).inputLogLineList
    ∧ KeysPrefix (processLog pre).outputLogLineList
        (processLog (pre ++ suf)).outputLogLineList := by
  unfold processLog
  rw [List.foldl_append]
  refine foldl_rel processLogLine
    (fun s s' => KeysPrefix s.inputLogLineList s'.inputLogLineList
      ∧ KeysPrefix s.outputLogLineList s'.outputLogLineList)
    (fun s => ⟨keysPrefix_refl _, keysPrefix_refl _⟩)
    (fun a b c h1 h2 => ⟨keysPrefix_trans _ _ _ h1.1 h2.1, keysPrefix_trans _ _ _ h1.2 h2.2⟩)
    ?_ suf _
  intro s r
  rcases processLogLine_cases s r with h | h <;> rw [h]
  · exact ⟨keysPrefix_recordWith _ _ _, keysPrefix_refl _⟩
  · exact ⟨keysPrefix_refl _, keysPrefix_recordWith _ _ _⟩

theorem countsGrow_processLog (pre suf : List LogLine)
    (hlen : (pre ++ suf).length < UINT32_MOD) :
    CountsGrow (processLog pre).inputLogLineList (processLog (pre ++ suf)).inputLogLineList
    ∧ CountsGrow (processLog pre).outputLogLineList
        (processLog (pre ++ suf)).outputLogLineList := by
  unfold processLog
  rw [List.foldl_append]
  rw [List.length_append] at hlen
  have hstep : ∀ n (s : Stores) (r : LogLine),
      (CountsAtMost n s.inputLogLineList ∧ CountsAtMost n s.outputLogLineList) →
      CountsAtMost (n + 1) (processLogLine s r).inputLogLineList
        ∧ CountsAtMost (n + 1) (processLogLine s r).outputLogLineList := by
    intro n s r h
    rcases processLogLine_cases s r with h' | h' <;> rw [h']
    · exact ⟨countsAtMost_recordWith _ n _ r h.1, countsAtMost_succ n _ h.2⟩
    · exact ⟨countsAtMost_succ n _ h.1, countsAtMost_recordWith _ n _ r h.2⟩
  have hb := foldl_bound processLogLine
    (fun n s => CountsAtMost n s.inputLogLineList ∧ CountsAtMost n s.outputLogLineList)
    hstep pre 0 { inputLogLineList := [], outputLogLineList := [] }
    ⟨fun e he => absurd he (List.not_mem_nil e), fun e he => absurd he (List.not_mem_nil e)⟩
  refine foldl_rel_of_bound processLogLine
    (fun n s => CountsAtMost n s.inputLogLineList ∧ CountsAtMost n s.outputLogLineList)
    (fun s s' => CountsGrow s.inputLogLineList s'.inputLogLineList
      ∧ CountsGrow s.outputLogLineList s'.outputLogLineList) UINT32_MOD
    (fun s => ⟨countsGrow_refl _, countsGrow_refl _⟩)
    (fun a b c h1 h2 => ⟨countsGrow_trans _ _ _ h1.1 h2.1, countsGrow_trans _ _ _ h1.2 h2.2⟩)
    hstep ?_ suf _ _ hb (by omega)
  intro n s r h hn
  rcases processLogLine_cases s r with h' | h' <;> rw [h']
  · exact ⟨countsGrow_recordWith _ n _ r h.1 hn, countsGrow_refl _⟩
  · exact ⟨countsGrow_refl _, countsGrow_recordWith _ n _ r h.2 hn⟩

/-- C6 (as amended): for every sequence of records `pre ++ suf` and each direction,
the list built from the prefix `pre` is, entry by entry and ignoring the counts, a
prefix of the list built from the whole sequence (nothing is removed, reordered,
merged or rewritten); and as long as the whole sequence has fewer than `2^32`
records, no count in the list of the prefix is larger than the count at the same
position in the final list. Both hold for each routine fed directly and for the two
lists `main` builds through its dispatch. -/
theorem C6_first_seen_order (d : Direction) (pre suf : List LogLine) :
    KeysPrefix (pre.foldl (recordEvent d) []) ((pre ++ suf).foldl (recordEvent d) [])
    ∧ KeysPrefix (processLog pre).inputLogLineList (processLog (pre ++ suf)).inputLogLineList
    ∧ KeysPrefix (processLog pre).outputLogLineList (processLog (pre ++ suf)).outputLogLineList
    ∧ ((pre ++ suf).length < UINT32_MOD →
        CountsGrow (pre.foldl (recordEvent d) []) ((pre ++ suf).foldl (recordEvent d) [])
        ∧ CountsGrow (processLog pre).inputLogLineList
            (processLog (pre ++ suf)).inputLogLineList
        ∧ CountsGrow (processLog pre).outputLogLineList
            (processLog (pre ++ suf)).outputLogLineList) := by
  rw [recordEvent_eq_recordWith]
  refine ⟨keysPrefix_foldl_recordWith _ pre suf, (keysPrefix_processLog pre suf).1,
    (keysPrefix_processLog pre suf).2, ?_⟩
  intro hlen
  exact ⟨countsGrow_foldl_recordWith _ pre suf hlen, (countsGrow_processLog pre suf hlen).1,
    (countsGrow_processLog pre suf hlen).2⟩

/-- Witness of C6: two inbound and one outbound record, then two more inbound
records. -/
theorem C6_first_seen_order_witness :
    ([scenarioA1, scenarioC1, scenarioB2] ++ [scenarioA2, otherHost]).length < UINT32_MOD
    ∧ CountsGrow ([scenarioA1, scenarioC1, scenarioB2].foldl (recordEvent Direction.Inbound) [])
        (([scenarioA1, scenarioC1, scenarioB2] ++ [scenarioA2, otherHost]).foldl
          (recordEvent Direction.Inbound) [])
    ∧ CountsGrow (processLog [scenarioA1, scenarioC1, scenarioB2]).inputLogLineList
        (processLog ([scenarioA1, scenarioC1, scenarioB2]
          ++ [scenarioA2, otherHost])).inputLogLineList
    ∧ CountsGrow (processLog [scenarioA1, scenarioC1, scenarioB2]).outputLogLineList
        (processLog ([scenarioA1, scenarioC1, scenarioB2]
          ++ [scenarioA2, otherHost])).outputLogLineList :=
  ⟨by decide,
    (C6_first_seen_order Direction.Inbound [scenarioA1, scenarioC1, scenarioB2]
      [scenarioA2, otherHost]).2.2.2 (by decide)⟩

theorem filterInputLogLine_same (r : LogLine) (c : Nat) :
    filterInputLogLine [{ r with count := c }] r
      = [{ r with count := (c + 1) % UINT32_MOD }] := by
  have h : inputEntryMatches { r with count := c } r = true := by
    rw [inputEntryMatches_iff]
    exact ⟨rfl, rfl, rfl, rfl, rfl, Or.inl rfl⟩
  simp [filterInputLogLine, filterInputScan, h]

theorem foldl_filterInputLogLine_replicate (r : LogLine) :
    ∀ n c : Nat, (List.replicate n r).foldl filterInputLogLine [{ r with count := c }]
      = [{ r with count := (c + n) % UINT32_MOD }] ∨ (n = 0 ∧ UINT32_MOD ≤ c) := by
  intro n
  induction n with
  | zero =>
    intro c
    rcases Nat.lt_or_ge c UINT32_MOD with h | h
    · left
      rw [Nat.mod_eq_of_lt (show c + 0 < UINT32_MOD from h)]
      rfl
    · right; exact ⟨rfl, h⟩
  | succ k ih =>
    intro c
    left
    rw [List.replicate_succ, List.foldl_cons, filterInputLogLine_same]
    rcases ih ((c + 1) % UINT32_MOD) with h | ⟨-, h⟩
    · rw [h]
      have : ((c + 1) % UINT32_MOD + k) % UINT32_MOD = (c + (k + 1)) % UINT32_MOD := by
        unfold UINT32_MOD; omega
      rw [this]
    · have : (c + 1) % UINT32_MOD < UINT32_MOD := Nat.mod_lt _ (by decide)
      omega

theorem foldl_filterInputLogLine_replicate_succ (r : LogLine) (n : Nat) :
    (List.replicate (n + 1) r).foldl filterInputLogLine []
      = [{ r with count := (1 + n) % UINT32_MOD }] := by
  rw [List.replicate_succ, List.foldl_cons]
  have h0 : filterInputLogLine [] r = [{ r with count := 1 }] := rfl
  rw [h0]
  rcases foldl_filterInputLogLine_replicate r n 1 with h | ⟨-, h⟩
  · exact h
  · exact absurd h (by decide)

/-- Counterexample to C6 as stated: the same inbound record 4294967296 times. After
the first 4294967295 records the single entry has `count = 4294967295`; after the
whole sequence it has `count = 0`, so the count did decrease. -/
theorem C6_counterexample_count_decreases :
    (List.replicate 4294967295 scenarioA1).foldl filterInputLogLine []
        = [{ scenarioA1 with count := 4294967295 }]
    ∧ (List.replicate 4294967295 scenarioA1 ++ [scenarioA1]).foldl filterInputLogLine []
        = [{ scenarioA1 with count := 0 }]
    ∧ ¬ CountsGrow ((List.replicate 4294967295 scenarioA1).foldl filterInputLogLine [])
        ((List.replicate 4294967295 scenarioA1 ++ [scenarioA1]).foldl filterInputLogLine []) := by
  have h1 : (List.replicate 4294967295 scenarioA1).foldl filterInputLogLine []
      = [{ scenarioA1 with count := 4294967295 }] :=
    foldl_filterInputLogLine_replicate_succ scenarioA1 4294967294
  have h2 : (List.replicate 4294967295 scenarioA1 ++ [scenarioA1]).foldl filterInputLogLine []
      = [{ scenarioA1 with count := 0 }] := by
    rw [List.foldl_append, h1]
    exact filterInputLogLine_same scenarioA1 4294967295
  refine ⟨h1, h2, ?_⟩
  rw [h1, h2]
  intro hg
  obtain ⟨b, hb, hle⟩ := hg 0 { scenarioA1 with count := 4294967295 } rfl
  have hb' : b = { scenarioA1 with count := 0 } := by
    have : some ({ scenarioA1 with count := 0 } : LogLine) = some b := hb
    exact (Option.some.inj this).symm
  subst hb'
  exact absurd hle (by decide)

/-! ## Two records into an empty list -/

/-- C7: two inbound records that agree on `in`, `out`, `macAddress`, `sourceIPAddr`
and `protocol` and on at least one of `sourcePort` / `destPort` (`destIPAddr` may
differ), recorded one after the other into the empty inbound list, leave exactly
one entry: the fields of the first record with `count = 2`. -/
theorem C7_inbound_fold (r1 r2 : LogLine)
    (h_in : r1.in_ = r2.in_) (h_out : r1.out = r2.out)
    (h_mac : r1.macAddress = r2.macAddress) (h_src : r1.sourceIPAddr = r2.sourceIPAddr)
    (h_proto : r1.protocol = r2.protocol)
    (h_port : r1.sourcePort = r2.sourcePort ∨ r1.destPort = r2.destPort) :
    filterInputLogLine (filterInputLogLine [] r1) r2 = [{ r1 with count := 2 }] := by
  have h : inputEntryMatches { r1 with count := 1 } r2 = true := by
    rw [inputEntryMatches_iff]
    exact ⟨h_in, h_out, h_mac, h_src, h_proto, h_port⟩
  have h0 : filterInputLogLine [] r1 = [{ r1 with count := 1 }] := rfl
  rw [h0]
  simp [filterInputLogLine, filterInputScan, h, UINT32_MOD]

/-- Witness of C7, scenario A: `IN=eth0 OUT= MAC=aa SRC=10.0.0.1 DST=10.0.0.9
PROTO=UDP SPT=100 DPT=200`, then the same line with `SPT=101`. -/
theorem C7_inbound_fold_witness :
    (scenarioA1.in_ = scenarioA2.in_ ∧ scenarioA1.out = scenarioA2.out
      ∧ scenarioA1.macAddress = scenarioA2.macAddress
      ∧ scenarioA1.sourceIPAddr = scenarioA2.sourceIPAddr
      ∧ scenarioA1.protocol = scenarioA2.protocol
      ∧ (scenarioA1.sourcePort = scenarioA2.sourcePort
          ∨ scenarioA1.destPort = scenarioA2.destPort))
    ∧ filterInputLogLine (filterInputLogLine [] scenarioA1) scenarioA2
        = [{ scenarioA1 with count := 2 }] :=
  ⟨⟨rfl, rfl, rfl, rfl, rfl, Or.inr rfl⟩,
    C7_inbound_fold scenarioA1 scenarioA2 rfl rfl rfl rfl rfl (Or.inr rfl)⟩

/-- C8: an inbound record `r1` and a second record equal to it in every field
except that both `sourcePort` and `destPort` differ, recorded one after the other
into the empty inbound list, leave exactly two entries, the first record and then
the second, each with `count = 1`. -/
theorem C8_inbound_separation (r1 : LogLine) (sourcePort destPort : Nat)
    (h_spt : r1.sourcePort ≠ sourcePort) (h_dpt : r1.destPort ≠ destPort) :
    filterInputLogLine (filterInputLogLine [] r1)
        { r1 with sourcePort := sourcePort, destPort := destPort }
      = [{ r1 with count := 1 },
         { r1 with sourcePort := sourcePort, destPort := destPort, count := 1 }] := by
  have h : inputEntryMatches { r1 with count := 1 }
      { r1 with sourcePort := sourcePort, destPort := destPort } = false := by
    rw [Bool.eq_false_iff, Ne, inputEntryMatches_iff]
    rintro ⟨-, -, -, -, -, h | h⟩
    · exact h_spt h
    · exact h_dpt h
  have h0 : filterInputLogLine [] r1 = [{ r1 with count := 1 }] := rfl
  rw [h0]
  simp [filterInputLogLine, filterInputScan, h, b196167f_add, b45c9f7e_cloneLogLine]

/-- Witness of C8, scenario B: the base line of scenario A, then the same line with
`SPT=101 DPT=201`. -/
theorem C8_inbound_separation_witness :
    (scenarioA1.sourcePort ≠ 101 ∧ scenarioA1.destPort ≠ 201)
    ∧ filterInputLogLine (filterInputLogLine [] scenarioA1)
          { scenarioA1 with sourcePort := 101, destPort := 201 }
        = [{ scenarioA1 with count := 1 },
           { scenarioA1 with sourcePort := 101, destPort := 201, count := 1 }] :=
  ⟨⟨by decide, by decide⟩,
    C8_inbound_separation scenarioA1 101 201 (by decide) (by decide)⟩

/-- C9: two outbound records that agree on `in`, `out`, `destIPAddr`, `protocol` and
`destPort` (`sourcePort`, `sourceIPAddr` and the rest arbitrary), recorded one after
the other into the empty outbound list, leave exactly one entry: the fields of the
first record with `count = 2`. -/
theorem C9_outbound_fold (r1 r2 : LogLine)
    (h_in : r1.in_ = r2.in_) (h_out : r1.out = r2.out)
    (h_dst : r1.destIPAddr = r2.destIPAddr) (h_proto : r1.protocol = r2.protocol)
    (h_dpt : r1.destPort = r2.destPort) :
    filterOutputLogLine (filterOutputLogLine [] r1) r2 = [{ r1 with count := 2 }] := by
  have h : outputEntryMatches { r1 with count := 1 } r2 = true := by
    rw [outputEntryMatches_iff]
    exact ⟨h_in, h_out, h_dst, h_proto, h_dpt⟩
  have h0 : filterOutputLogLine [] r1 = [{ r1 with count := 1 }] := rfl
  rw [h0]
  simp [filterOutputLogLine, filterOutputScan, h, UINT32_MOD]

/-- Witness of C9, scenario C: `IN= OUT=eth0 SRC=1.1.1.1 DST=2.2.2.2 PROTO=TCP
SPT=500 DPT=443`, then the same line with `SPT=501`. -/
theorem C9_outbound_fold_witness :
    (scenarioC1.in_ = scenarioC2.in_ ∧ scenarioC1.out = scenarioC2.out
      ∧ scenarioC1.destIPAddr = scenarioC2.destIPAddr
      ∧ scenarioC1.protocol = scenarioC2.protocol
      ∧ scenarioC1.destPort = scenarioC2.destPort)
    ∧ filterOutputLogLine (filterOutputLogLine [] scenarioC1) scenarioC2
        = [{ scenarioC1 with count := 2 }] :=
  ⟨⟨rfl, rfl, rfl, rfl, rfl⟩,
    C9_outbound_fold scenarioC1 scenarioC2 rfl rfl rfl rfl rfl⟩

/-- C10: two outbound records with different `destPort`, recorded one after the
other into the empty outbound list, leave exactly two entries, the first record and
then the second, each with `count = 1`, whatever their source ports. -/
theorem C10_outbound_separation (r1 r2 : LogLine) (h_dpt : r1.destPort ≠ r2.destPort) :
    filterOutputLogLine (filterOutputLogLine [] r1) r2
      = [{ r1 with count := 1 }, { r2 with count := 1 }] := by
  have h : outputEntryMatches { r1 with count := 1 } r2 = false := by
    rw [Bool.eq_false_iff, Ne, outputEntryMatches_iff]
    rintro ⟨-, -, -, -, h⟩
    exact h_dpt h
  have h0 : filterOutputLogLine [] r1 = [{ r1 with count := 1 }] := rfl
  rw [h0]
  simp [filterOutputLogLine, filterOutputScan, h, b196167f_add, b45c9f7e_cloneLogLine]

/-- Witness of C10, scenario D: the base line of scenario C, then the same line with
`DPT=80`. -/
theorem C10_outbound_separation_witness :
    scenarioC1.destPort ≠ scenarioD2.destPort
    ∧ filterOutputLogLine (filterOutputLogLine [] scenarioC1) scenarioD2
        = [{ scenarioC1 with count := 1 }, { scenarioD2 with count := 1 }] :=
  ⟨by decide, C10_outbound_separation scenarioC1 scenarioD2 (by decide)⟩

/-! ## The dispatch of `main` -/

theorem recordWith_ne_self (cond : LogLine → LogLine → Bool) (l : List LogLine) (r : LogLine) :
    recordWith cond l r ≠ l := by
  by_cases hm : ∃ e ∈ l, cond e r = true
  · obtain ⟨i, e, hi, -, -, hset⟩ := recordWith_of_match cond l r hm
    intro heq
    rw [hset] at heq
    obtain ⟨hlt, rfl⟩ := List.getElem?_eq_some.1 hi
    have h1 : (l.set i (bumpCount l[i]))[i]? = some (bumpCount l[i]) := by
      simp [List.getElem?_set, hlt]
    rw [heq, List.getElem?_eq_getElem hlt] at h1
    have h2 : l[i].count = (l[i].count + 1) % UINT32_MOD :=
      congrArg LogLine.count (Option.some.inj h1)
    unfold UINT32_MOD at h2
    omega
  · have hno : ∀ e ∈ l, cond e r = false := by
      intro e he
      cases hc : cond e r with
      | false => rfl
      | true => exact absurd ⟨e, he, hc⟩ hm
    rw [recordWith_of_no_match cond l r hno]
    intro heq
    have := congrArg List.length heq
    simp at this

theorem processLogLine_eq_classify (stores : Stores) (r : LogLine) :
    processLogLine stores r
      = match classify r with
        | Direction.Inbound =>
            { inputLogLineList := filterInputLogLine stores.inputLogLineList r,
              outputLogLineList := stores.outputLogLineList }
        | Direction.Outbound =>
            { inputLogLineList := stores.inputLogLineList,
              outputLogLineList := filterOutputLogLine stores.outputLogLineList r } := by
  by_cases hin : r.in_ ≠ ""
  · simp [processLogLine, classify, hin]
  · simp [processLogLine, classify, hin]

/-- C11: for every record with exactly one of `in` / `out` non-empty, the dispatch of
`main` is a function of the record alone (`classify`): the record goes to
`filterInputLogLine` exactly when `in` is non-empty and to `filterOutputLogLine`
otherwise, that is exactly when `out` is non-empty; the list of the other direction
is left as it is; and two records with the same `in` get the same direction
whatever their other fields are. -/
theorem C11_direction_classification (stores : Stores) (r : LogLine)
    (h : (r.in_ ≠ "" ∧ r.out = "") ∨ (r.in_ = "" ∧ r.out ≠ "")) :
    (classify r = Direction.Inbound ↔ r.in_ ≠ "")
    ∧ (classify r = Direction.Outbound ↔ r.out ≠ "")
    ∧ (classify r = Direction.Inbound →
        processLogLine stores r
          = { inputLogLineList := filterInputLogLine stores.inputLogLineList r,
              outputLogLineList := stores.outputLogLineList })
    ∧ (classify r = Direction.Outbound →
        processLogLine stores r
          = { inputLogLineList := stores.inputLogLineList,
              outputLogLineList := filterOutputLogLine stores.outputLogLineList r })
    ∧ (∀ r' : LogLine, r'.in_ = r.in_ → classify r' = classify r) := by
  refine ⟨?_, ?_, ?_, ?_, ?_⟩
  · by_cases hin : r.in_ ≠ "" <;> simp [classify, hin]
  · rcases h with ⟨h1, h2⟩ | ⟨h1, h2⟩
    · simp [classify, h1, h2]
    · simp [classify, h1, h2]
  · intro hc
    rw [processLogLine_eq_classify, hc]
  · intro hc
    rw [processLogLine_eq_classify, hc]
  · intro r' hr'
    simp [classify, hr']

/-- Witness of C11: the inbound line of scenario A. -/
theorem C11_direction_classification_witness :
    ((scenarioA1.in_ ≠ "" ∧ scenarioA1.out = "") ∨ (scenarioA1.in_ = "" ∧ scenarioA1.out ≠ ""))
    ∧ classify scenarioA1 = Direction.Inbound
    ∧ processLogLine { inputLogLineList := [], outputLogLineList := [scenarioC1] } scenarioA1
        = { inputLogLineList := filterInputLogLine [] scenarioA1,
            outputLogLineList := [scenarioC1] } :=
  ⟨by decide, by decide,
    (C11_direction_classification { inputLogLineList := [], outputLogLineList := [scenarioC1] }
      scenarioA1 (by decide)).2.2.1 (by decide)⟩

/-- C12 (as amended): a record whose `in` and `out` are both empty is not rejected
by `main`: nothing is signalled, the record is handed to `filterOutputLogLine`, the
outbound list changes (a matching entry is bumped or the record is appended) and
the inbound list is left as it is. -/
theorem C12_no_direction_goes_outbound (stores : Stores) (r : LogLine)
    (h_in : r.in_ = "") (h_out : r.out = "") :
    r.out = "" ∧ classify r = Direction.Outbound
    ∧ processLogLine stores r
        = { inputLogLineList := stores.inputLogLineList,
            outputLogLineList := filterOutputLogLine stores.outputLogLineList r }
    ∧ (processLogLine stores r).outputLogLineList ≠ stores.outputLogLineList := by
  have hc : classify r = Direction.Outbound := by simp [classify, h_in]
  refine ⟨h_out, hc, ?_, ?_⟩
  · rw [processLogLine_eq_classify, hc]
  · rw [processLogLine_eq_classify, hc, filterOutputLogLine_eq_recordWith]
    exact recordWith_ne_self _ _ _

/-- Witness of C12: a record with `IN=` and `OUT=` both empty, on empty lists. -/
theorem C12_no_direction_goes_outbound_witness :
    (noDirectionEvent.in_ = "" ∧ noDirectionEvent.out = "")
    ∧ processLogLine { inputLogLineList := [], outputLogLineList := [] } noDirectionEvent
        = { inputLogLineList := [],
            outputLogLineList := filterOutputLogLine [] noDirectionEvent } :=
  ⟨by decide,
    (C12_no_direction_goes_outbound { inputLogLineList := [], outputLogLineList := [] }
      noDirectionEvent (by decide) (by decide)).2.2.1⟩

/-- Counterexample to C12 as stated: a record with `IN=` and `OUT=` both empty is
processed on two empty lists; afterwards the outbound list holds the record with
`count = 1`, so the line was not skipped. -/
theorem C12_counterexample_not_skipped :
    noDirectionEvent.in_ = "" ∧ noDirectionEvent.out = ""
    ∧ processLog [noDirectionEvent]
        = { inputLogLineList := [],
            outputLogLineList := [{ noDirectionEvent with count := 1 }] }
    ∧ processLog [noDirectionEvent] ≠ processLog [] := by
  decide

/-- C13 (as amended): a record whose `in` and `out` are both non-empty is not
rejected by `main`: nothing is signalled, the record is handed to
`filterInputLogLine`, the inbound list changes (a matching entry is bumped or the
record is appended) and the outbound list is left as it is. -/
theorem C13_both_directions_goes_inbound (stores : Stores) (r : LogLine)
    (h_in : r.in_ ≠ "") (h_out : r.out ≠ "") :
    r.out ≠ "" ∧ classify r = Direction.Inbound
    ∧ processLogLine stores r
        = { inputLogLineList := filterInputLogLine stores.inputLogLineList r,
            outputLogLineList := stores.outputLogLineList }
    ∧ (processLogLine stores r).inputLogLineList ≠ stores.inputLogLineList := by
  have hc : classify r = Direction.Inbound := by simp [classify, h_in]
  refine ⟨h_out, hc, ?_, ?_⟩
  · rw [processLogLine_eq_classify, hc]
  · rw [processLogLine_eq_classify, hc, filterInputLogLine_eq_recordWith]
    exact recordWith_ne_self _ _ _

/-- Witness of C13: a forwarded packet (`IN=eth0 OUT=eth1`), on empty lists. -/
theorem C13_both_directions_goes_inbound_witness :
    (forwardedEvent.in_ ≠ "" ∧ forwardedEvent.out ≠ "")
    ∧ processLogLine { inputLogLineList := [], outputLogLineList := [] } forwardedEvent
        = { inputLogLineList := filterInputLogLine [] forwardedEvent,
            outputLogLineList := [] } :=
  ⟨by decide,
    (C13_both_directions_goes_inbound { inputLogLineList := [], outputLogLineList := [] }
      forwardedEvent (by decide) (by decide)).2.2.1⟩

/-- Counterexample to C13 as stated: a record with `IN=eth0 OUT=eth1` is processed on
two empty lists; afterwards the inbound list holds the record with `count = 1`, so
the line was not skipped. -/
theorem C13_counterexample_not_skipped :
    forwardedEvent.in_ ≠ "" ∧ forwardedEvent.out ≠ ""
    ∧ processLog [forwardedEvent]
        = { inputLogLineList := [{ forwardedEvent with count := 1 }],
            outputLogLineList := [] }
    ∧ processLog [forwardedEvent] ≠ processLog [] := by
  decide

/-! ## The inbound report -/

theorem printInputEntry_scenarioA1 :
    printInputEntry scenarioA1
      = "Count: 1 IN=eth0 MAC=aa SRC=10.0.0.1 DST=10.0.0.9 PROTO=UDP SPT=100 DPT=200\n" := by
  decide

theorem printInputEntry_icmpEntry :
    printInputEntry icmpEntry
      = "Count: 3 IN=eth0 MAC=aa SRC=10.0.0.1 DST=10.0.0.9 PROTO=ICMP TYPE=8\n" := by
  decide

theorem printInputEntry_eq (e : LogLine) :
    printInputEntry e
      = (if e.destPort = 0 then
          "Count: " ++ formatUnsigned e.count ++ " IN=" ++ e.in_ ++ " MAC=" ++ e.macAddress
            ++ " SRC=" ++ e.sourceIPAddr ++ " DST=" ++ e.destIPAddr ++ " PROTO=" ++ e.protocol
            ++ " TYPE=" ++ formatUnsigned e.sourcePort ++ "\n"
        else
          "Count: " ++ formatUnsigned e.count ++ " IN=" ++ e.in_ ++ " MAC=" ++ e.macAddress
            ++ " SRC=" ++ e.sourceIPAddr ++ " DST=" ++ e.destIPAddr ++ " PROTO=" ++ e.protocol
            ++ " SPT=" ++ formatUnsigned e.sourcePort
            ++ " DPT=" ++ formatUnsigned e.destPort ++ "\n") := by
  by_cases h : e.destPort = 0
  · simp [printInputEntry, renderFields, inputReportFields, h, String.append_assoc]
  · simp [printInputEntry, renderFields, inputReportFields, h, String.append_assoc]

theorem splitOnSpaces_of_no_space : ∀ a : List Char, ' ' ∉ a → splitOnSpaces a = [a] := by
  intro a
  induction a with
  | nil => intro _; rfl
  | cons c rest ih =>
    intro h
    have hc : c ≠ ' ' := fun hc => h (hc ▸ List.mem_cons_self _ _)
    have hrest : ' ' ∉ rest := fun hr => h (List.mem_cons_of_mem _ hr)
    simp [splitOnSpaces, hc, ih hrest]

theorem splitOnSpaces_append_space : ∀ (a rest : List Char), ' ' ∉ a →
    splitOnSpaces (a ++ ' ' :: rest) = a :: splitOnSpaces rest := by
  intro a
  induction a with
  | nil => intro rest _; simp [splitOnSpaces]
  | cons c tail ih =>
    intro rest h
    have hc : c ≠ ' ' := fun hc => h (hc ▸ List.mem_cons_self _ _)
    have htail : ' ' ∉ tail := fun hr => h (List.mem_cons_of_mem _ hr)
    simp [splitOnSpaces, hc, ih rest htail]

theorem digitChar_isDigit (k : Nat) (h : k < 10) : (Nat.digitChar k).isDigit = true := by
  interval_cases k <;> decide

theorem toDigitsCore_isDigit : ∀ (fuel n : Nat) (ds : List Char),
    (∀ c ∈ ds, c.isDigit = true) → ∀ c ∈ Nat.toDigitsCore 10 fuel n ds, c.isDigit = true := by
  intro fuel
  induction fuel with
  | zero => intro n ds h c hc; exact h c (by simpa [Nat.toDigitsCore] using hc)
  | succ fuel ih =>
    intro n ds h c hc
    have hd : ∀ x ∈ Nat.digitChar (n % 10) :: ds, x.isDigit = true := by
      intro x hx
      rcases List.mem_cons.1 hx with rfl | hx
      · exact digitChar_isDigit _ (Nat.mod_lt _ (by decide))
      · exact h x hx
    unfold Nat.toDigitsCore at hc
    by_cases h0 : n / 10 = 0
    · simp only [h0, if_true] at hc
      exact hd c hc
    · simp only [h0, if_false] at hc
      exact ih _ _ hd c hc

theorem formatUnsigned_isDigit (n : Nat) : ∀ c ∈ (formatUnsigned n).data, c.isDigit = true := by
  intro c hc
  exact toDigitsCore_isDigit (n + 1) n [] (fun x hx => absurd hx (List.not_mem_nil x)) c hc

theorem formatUnsigned_no_space (n : Nat) : ' ' ∉ (formatUnsigned n).data :=
  fun h => absurd (formatUnsigned_isDigit n _ h) (by decide)

theorem no_space_label (label : List Char) (value : List Char) (hl : ' ' ∉ label)
    (hv : ' ' ∉ value) : ' ' ∉ label ++ value := by
  intro h
  rcases List.mem_append.1 h with h | h
  · exact hl h
  · exact hv h

theorem printInputEntry_tokens (e : LogLine) (h : SpaceFreeFields e) :
    splitOnSpaces (printInputEntry e).data
      = ["Count:".data, (formatUnsigned e.count).data, "IN=".data ++ e.in_.data,
          "MAC=".data ++ e.macAddress.data, "SRC=".data ++ e.sourceIPAddr.data,
          "DST=".data ++ e.destIPAddr.data, "PROTO=".data ++ e.protocol.data]
        ++ (if e.destPort = 0 then
              ["TYPE=".data ++ (formatUnsigned e.sourcePort).data ++ "\n".data]
            else
              ["SPT=".data ++ (formatUnsigned e.sourcePort).data,
               "DPT=".data ++ (formatUnsigned e.destPort).data ++ "\n".data]) := by
  obtain ⟨hin, hmac, hsrc, hdst, hproto⟩ := h
  have hcount := formatUnsigned_no_space e.count
  have hspt := formatUnsigned_no_space e.sourcePort
  have hdpt := formatUnsigned_no_space e.destPort
  have e1 : ("Count: " : String).data = "Count:".data ++ ' ' :: [] := rfl
  have e2 : (" IN=" : String).data = ' ' :: "IN=".data := rfl
  have e3 : (" MAC=" : String).data = ' ' :: "MAC=".data := rfl
  have e4 : (" SRC=" : String).data = ' ' :: "SRC=".data := rfl
  have e5 : (" DST=" : String).data = ' ' :: "DST=".data := rfl
  have e6 : (" PROTO=" : String).data = ' ' :: "PROTO=".data := rfl
  have e7 : (" TYPE=" : String).data = ' ' :: "TYPE=".data := rfl
  have e8 : (" SPT=" : String).data = ' ' :: "SPT=".data := rfl
  have e9 : (" DPT=" : String).data = ' ' :: "DPT=".data := rfl
  have n1 : ' ' ∉ "Count:".data := by decide
  have n2 : ' ' ∉ "IN=".data ++ e.in_.data := no_space_label _ _ (by decide) hin
  have n3 : ' ' ∉ "MAC=".data ++ e.macAddress.data := no_space_label _ _ (by decide) hmac
  have n4 : ' ' ∉ "SRC=".data ++ e.sourceIPAddr.data := no_space_label _ _ (by decide) hsrc
  have n5 : ' ' ∉ "DST=".data ++ e.destIPAddr.data := no_space_label _ _ (by decide) hdst
  have n6 : ' ' ∉ "PROTO=".data ++ e.protocol.data := no_space_label _ _ (by decide) hproto
  have n7 : ' ' ∉ "TYPE=".data ++ (formatUnsigned e.sourcePort).data ++ "\n".data :=
    no_space_label _ _ (no_space_label _ _ (by decide) hspt) (by decide)
  have n8 : ' ' ∉ "SPT=".data ++ (formatUnsigned e.sourcePort).data :=
    no_space_label _ _ (by decide) hspt
  have n9 : ' ' ∉ "DPT=".data ++ (formatUnsigned e.destPort).data ++ "\n".data :=
    no_space_label _ _ (no_space_label _ _ (by decide) hdpt) (by decide)
  rw [printInputEntry_eq]
  by_cases hz : e.destPort = 0
  · rw [if_pos hz, if_pos hz]
    repeat rw [String.data_append]
    rw [e1, e2, e3, e4, e5, e6, e7]
    have hshape : ("Count:".data ++ [' '] ++ (formatUnsigned e.count).data ++ ' ' :: "IN=".data
          ++ e.in_.data ++ ' ' :: "MAC=".data ++ e.macAddress.data ++ ' ' :: "SRC=".data
          ++ e.sourceIPAddr.data ++ ' ' :: "DST=".data ++ e.destIPAddr.data
          ++ ' ' :: "PROTO=".data ++ e.protocol.data ++ ' ' :: "TYPE=".data
          ++ (formatUnsigned e.sourcePort).data ++ "\n".data)
        = "Count:".data ++ ' ' :: ((formatUnsigned e.count).data ++ ' ' :: (("IN=".data
          ++ e.in_.data) ++ ' ' :: (("MAC=".data ++ e.macAddress.data) ++ ' ' :: (("SRC=".data
          ++ e.sourceIPAddr.data) ++ ' ' :: (("DST=".data ++ e.destIPAddr.data)
          ++ ' ' :: (("PROTO=".data ++ e.protocol.data) ++ ' ' :: ("TYPE=".data
          ++ (formatUnsigned e.sourcePort).data ++ "\n".data))))))) := by
      simp only [List.append_assoc, List.cons_append, List.nil_append]
    rw [hshape, splitOnSpaces_append_space _ _ n1, splitOnSpaces_append_space _ _ hcount,
      splitOnSpaces_append_space _ _ n2, splitOnSpaces_append_space _ _ n3,
      splitOnSpaces_append_space _ _ n4, splitOnSpaces_append_space _ _ n5,
      splitOnSpaces_append_space _ _ n6, splitOnSpaces_of_no_space _ n7]
    rfl
  · rw [if_neg hz, if_neg hz]
    repeat rw [String.data_append]
    rw [e1, e2, e3, e4, e5, e6, e8, e9]
    have hshape : ("Count:".data ++ [' '] ++ (formatUnsigned e.count).data ++ ' ' :: "IN=".data
          ++ e.in_.data ++ ' ' :: "MAC=".data ++ e.macAddress.data ++ ' ' :: "SRC=".data
          ++ e.sourceIPAddr.data ++ ' ' :: "DST=".data ++ e.destIPAddr.data
          ++ ' ' :: "PROTO=".data ++ e.protocol.data ++ ' ' :: "SPT=".data
          ++ (formatUnsigned e.sourcePort).data ++ ' ' :: "DPT=".data
          ++ (formatUnsigned e.destPort).data ++ "\n".data)
        = "Count:".data ++ ' ' :: ((formatUnsigned e.count).data ++ ' ' :: (("IN=".data
          ++ e.in_.data) ++ ' ' :: (("MAC=".data ++ e.macAddress.data) ++ ' ' :: (("SRC=".data
          ++ e.sourceIPAddr.data) ++ ' ' :: (("DST=".data ++ e.destIPAddr.data)
          ++ ' ' :: (("PROTO=".data ++ e.protocol.data) ++ ' ' :: (("SPT=".data
          ++ (formatUnsigned e.sourcePort).data) ++ ' ' :: ("DPT=".data
          ++ (formatUnsigned e.destPort).data ++ "\n".data)))))))) := by
      simp only [List.append_assoc, List.cons_append, List.nil_append]
    rw [hshape, splitOnSpaces_append_space _ _ n1, splitOnSpaces_append_space _ _ hcount,
      splitOnSpaces_append_space _ _ n2, splitOnSpaces_append_space _ _ n3,
      splitOnSpaces_append_space _ _ n4, splitOnSpaces_append_space _ _ n5,
      splitOnSpaces_append_space _ _ n6, splitOnSpaces_append_space _ _ n8,
      splitOnSpaces_of_no_space _ n9]
    rfl

theorem isPrefixOf_formatUnsigned (c : Char) (p : List Char) (n : Nat)
    (hc : c.isDigit = false) : (c :: p).isPrefixOf (formatUnsigned n).data = false := by
  cases hd : (formatUnsigned n).data with
  | nil => rfl
  | cons x rest =>
    have hx : x.isDigit = true := formatUnsigned_isDigit n x (by rw [hd]; exact List.mem_cons_self _ _)
    have hne : c ≠ x := fun heq => by rw [heq, hx] at hc; cases hc
    simp [List.isPrefixOf, hne]

theorem hasField_printInputEntry (e : LogLine) (h : SpaceFreeFields e) :
    (hasField "DPT" (printInputEntry e) = true ↔ e.destPort ≠ 0)
    ∧ (hasField "SPT" (printInputEntry e) = true ↔ e.destPort ≠ 0)
    ∧ (hasField "TYPE" (printInputEntry e) = true ↔ e.destPort = 0)
    ∧ hasField "IN" (printInputEntry e) = true
    ∧ hasField "MAC" (printInputEntry e) = true
    ∧ hasField "SRC" (printInputEntry e) = true
    ∧ hasField "DST" (printInputEntry e) = true
    ∧ hasField "PROTO" (printInputEntry e) = true := by
  have ht := printInputEntry_tokens e h
  have k1 : ("DPT" ++ "=" : String).data = "DPT=".data := rfl
  have k2 : ("SPT" ++ "=" : String).data = "SPT=".data := rfl
  have k3 : ("TYPE" ++ "=" : String).data = "TYPE=".data := rfl
  have k4 : ("IN" ++ "=" : String).data = "IN=".data := rfl
  have k5 : ("MAC" ++ "=" : String).data = "MAC=".data := rfl
  have k6 : ("SRC" ++ "=" : String).data = "SRC=".data := rfl
  have k7 : ("DST" ++ "=" : String).data = "DST=".data := rfl
  have k8 : ("PROTO" ++ "=" : String).data = "PROTO=".data := rfl
  have dD := fun p n => isPrefixOf_formatUnsigned 'D' p n (by decide)
  have dS := fun p n => isPrefixOf_formatUnsigned 'S' p n (by decide)
  have dT := fun p n => isPrefixOf_formatUnsigned 'T' p n (by decide)
  unfold hasField
  rw [ht, k1, k2, k3, k4, k5, k6, k7, k8]
  by_cases hz : e.destPort = 0
  · simp [hz, dD, dS, dT, List.isPrefixOf]
  · simp [hz, dD, dS, dT, List.isPrefixOf]

/-- C14: the line `main` emits for a stored inbound entry is, character for
character, `Count: <count> IN=<in> MAC=<mac> SRC=<src> DST=<dst> PROTO=<proto>`
followed by ` SPT=<sourcePort> DPT=<destPort>` when `destPort` is not zero and by
` TYPE=<sourcePort>` when it is zero, and a newline. Its pieces start with the count,
`IN`, `MAC`, `SRC`, `DST` and `PROTO`; the pieces `SPT` and `DPT` are there exactly
when `destPort` is not zero and the piece `TYPE` exactly when it is zero. When the
five text fields hold no space, the emitted line cut at its spaces is exactly this
list of fields: it has the fields `IN`, `MAC`, `SRC`, `DST`, `PROTO`, it has a `DPT`
field and an `SPT` field exactly when `destPort` is not zero, and a `TYPE` field
exactly when it is zero. -/
theorem C14_inbound_report_shape (e : LogLine) :
    (inputReportFields e).take 6
        = [("Count: ", formatUnsigned e.count), (" IN=", e.in_), (" MAC=", e.macAddress),
           (" SRC=", e.sourceIPAddr), (" DST=", e.destIPAddr), (" PROTO=", e.protocol)]
    ∧ (" DPT=" ∈ (inputReportFields e).map Prod.fst ↔ e.destPort ≠ 0)
    ∧ (" SPT=" ∈ (inputReportFields e).map Prod.fst ↔ e.destPort ≠ 0)
    ∧ (" TYPE=" ∈ (inputReportFields e).map Prod.fst ↔ e.destPort = 0)
    ∧ (inputReportFields e).drop 6
        = (if e.destPort = 0 then [(" TYPE=", formatUnsigned e.sourcePort)]
           else [(" SPT=", formatUnsigned e.sourcePort), (" DPT=", formatUnsigned e.destPort)])
    ∧ printInputEntries [e] = [renderFields (inputReportFields e)]
    ∧ printInputEntries [e]
        = [if e.destPort = 0 then
            "Count: " ++ formatUnsigned e.count ++ " IN=" ++ e.in_ ++ " MAC=" ++ e.macAddress
              ++ " SRC=" ++ e.sourceIPAddr ++ " DST=" ++ e.destIPAddr
              ++ " PROTO=" ++ e.protocol
              ++ " TYPE=" ++ formatUnsigned e.sourcePort ++ "\n"
          else
            "Count: " ++ formatUnsigned e.count ++ " IN=" ++ e.in_ ++ " MAC=" ++ e.macAddress
              ++ " SRC=" ++ e.sourceIPAddr ++ " DST=" ++ e.destIPAddr
              ++ " PROTO=" ++ e.protocol
              ++ " SPT=" ++ formatUnsigned e.sourcePort
              ++ " DPT=" ++ formatUnsigned e.destPort ++ "\n"]
    ∧ (SpaceFreeFields e →
        splitOnSpaces (printInputEntry e).data
          = ["Count:".data, (formatUnsigned e.count).data, "IN=".data ++ e.in_.data,
              "MAC=".data ++ e.macAddress.data, "SRC=".data ++ e.sourceIPAddr.data,
              "DST=".data ++ e.destIPAddr.data, "PROTO=".data ++ e.protocol.data]
            ++ (if e.destPort = 0 then
                  ["TYPE=".data ++ (formatUnsigned e.sourcePort).data ++ "\n".data]
                else
                  ["SPT=".data ++ (formatUnsigned e.sourcePort).data,
                   "DPT=".data ++ (formatUnsigned e.destPort).data ++ "\n".data]))
    ∧ (SpaceFreeFields e →
        (hasField "DPT" (printInputEntry e) = true ↔ e.destPort ≠ 0)
        ∧ (hasField "SPT" (printInputEntry e) = true ↔ e.destPort ≠ 0)
        ∧ (hasField "TYPE" (printInputEntry e) = true ↔ e.destPort = 0)
        ∧ hasField "IN" (printInputEntry e) = true
        ∧ hasField "MAC" (printInputEntry e) = true
        ∧ hasField "SRC" (printInputEntry e) = true
        ∧ hasField "DST" (printInputEntry e) = true
        ∧ hasField "PROTO" (printInputEntry e) = true) := by
  have hline : printInputEntries [e] = [printInputEntry e] := rfl
  refine ⟨?_, ?_, ?_, ?_, ?_, rfl, ?_, printInputEntry_tokens e, hasField_printInputEntry e⟩
  · by_cases h : e.destPort = 0 <;> simp [inputReportFields, h]
  · by_cases h : e.destPort = 0 <;> simp [inputReportFields, h]
  · by_cases h : e.destPort = 0 <;> simp [inputReportFields, h]
  · by_cases h : e.destPort = 0 <;> simp [inputReportFields, h]
  · by_cases h : e.destPort = 0 <;> simp [inputReportFields, h]
  · rw [hline, printInputEntry_eq]

/-- Witness of C14: the stored entry of scenario A (non-zero `destPort`) and an ICMP
entry (`destPort = 0`); none of their text fields holds a space. -/
theorem C14_inbound_report_shape_witness :
    (SpaceFreeFields scenarioA1 ∧ SpaceFreeFields icmpEntry)
    ∧ (hasField "DPT" (printInputEntry scenarioA1) = true ↔ scenarioA1.destPort ≠ 0)
    ∧ (hasField "DPT" (printInputEntry icmpEntry) = true ↔ icmpEntry.destPort ≠ 0)
    ∧ (hasField "TYPE" (printInputEntry icmpEntry) = true ↔ icmpEntry.destPort = 0)
    ∧ printInputEntries [scenarioA1, icmpEntry]
        = ["Count: 1 IN=eth0 MAC=aa SRC=10.0.0.1 DST=10.0.0.9 PROTO=UDP SPT=100 DPT=200\n",
           "Count: 3 IN=eth0 MAC=aa SRC=10.0.0.1 DST=10.0.0.9 PROTO=ICMP TYPE=8\n"] :=
  ⟨⟨by unfold SpaceFreeFields; decide, by unfold SpaceFreeFields; decide⟩,
    ((C14_inbound_report_shape scenarioA1).2.2.2.2.2.2.2.2
      (by unfold SpaceFreeFields; decide)).1,
    ((C14_inbound_report_shape icmpEntry).2.2.2.2.2.2.2.2
      (by unfold SpaceFreeFields; decide)).1,
    ((C14_inbound_report_shape icmpEntry).2.2.2.2.2.2.2.2
      (by unfold SpaceFreeFields; decide)).2.2.1,
    by decide⟩

/-! ## Count conservation and independence of the two lists -/

theorem totalCount_scanWith (cond : LogLine → LogLine → Bool) (r : LogLine) :
    ∀ (l u : List LogLine), scanWith cond r l = some u →
      (∀ e ∈ l, e.count + 1 < UINT32_MOD) → totalCount u = totalCount l + 1 := by
  intro l
  induction l with
  | nil => intro u h; simp [scanWith] at h
  | cons e rest ih =>
    intro u h hb
    by_cases hc : cond e r = true
    · simp [scanWith, hc] at h
      subst h
      have he := hb e (List.mem_cons_self _ _)
      simp only [totalCount, List.map_cons, List.sum_cons, bumpCount]
      rw [Nat.mod_eq_of_lt he]
      omega
    · simp [scanWith, hc] at h
      obtain ⟨u', hu', rfl⟩ := h
      have := ih u' hu' (fun x hx => hb x (List.mem_cons_of_mem _ hx))
      simp only [totalCount, List.map_cons, List.sum_cons] at this ⊢
      omega

theorem totalCount_recordWith (cond : LogLine → LogLine → Bool) (l : List LogLine)
    (r : LogLine) (hb : ∀ e ∈ l, e.count + 1 < UINT32_MOD) :
    totalCount (recordWith cond l r) = totalCount l + 1 := by
  cases hs : scanWith cond r l with
  | none =>
    simp [recordWith, hs, totalCount]
  | some u =>
    simpa [recordWith, hs] using totalCount_scanWith cond r l u hs hb

theorem count_le_totalCount (l : List LogLine) : ∀ e ∈ l, e.count ≤ totalCount l := by
  induction l with
  | nil => intro e he; cases he
  | cons x rest ih =>
    intro e he
    simp only [totalCount, List.map_cons, List.sum_cons]
    rcases List.mem_cons.1 he with rfl | he
    · omega
    · have := ih e he
      unfold totalCount at this
      omega

theorem totalCount_foldl_processLogLine (logLines : List LogLine) :
    ∀ stores : Stores,
      totalCount stores.inputLogLineList + totalCount stores.outputLogLineList
          + logLines.length < UINT32_MOD →
      totalCount (logLines.foldl processLogLine stores).inputLogLineList
          = totalCount stores.inputLogLineList
            + logLines.countP (fun r => classify r = Direction.Inbound)
      ∧ totalCount (logLines.foldl processLogLine stores).outputLogLineList
          = totalCount stores.outputLogLineList
            + logLines.countP (fun r => classify r = Direction.Outbound) := by
  induction logLines with
  | nil => intro stores _; simp
  | cons r rest ih =>
    intro stores hlen
    rw [List.length_cons] at hlen
    rw [List.foldl_cons]
    by_cases hin : r.in_ ≠ ""
    · have hc : classify r = Direction.Inbound := by simp [classify, hin]
      have hstep : processLogLine stores r
          = { inputLogLineList := recordWith inputEntryMatches stores.inputLogLineList r,
              outputLogLineList := stores.outputLogLineList } := by
        simp [processLogLine, hin, filterInputLogLine_eq_recordWith]
      have hb : ∀ e ∈ stores.inputLogLineList, e.count + 1 < UINT32_MOD := by
        intro e he
        have := count_le_totalCount _ e he
        omega
      have htc := totalCount_recordWith inputEntryMatches stores.inputLogLineList r hb
      rw [hstep]
      have := ih { inputLogLineList := recordWith inputEntryMatches stores.inputLogLineList r,
                   outputLogLineList := stores.outputLogLineList }
        (by simp only [htc]; omega)
      simp only [htc] at this
      simp only [List.countP_cons, hc, decide_True, if_true, decide_False, if_false,
        reduceCtorEq]
      omega
    · have hc : classify r = Direction.Outbound := by simp [classify, hin]
      have hstep : processLogLine stores r
          = { inputLogLineList := stores.inputLogLineList,
              outputLogLineList := recordWith outputEntryMatches stores.outputLogLineList r } := by
        simp [processLogLine, hin, filterOutputLogLine_eq_recordWith]
      have hb : ∀ e ∈ stores.outputLogLineList, e.count + 1 < UINT32_MOD := by
        intro e he
        have := count_le_totalCount _ e he
        omega
      have htc := totalCount_recordWith outputEntryMatches stores.outputLogLineList r hb
      rw [hstep]
      have := ih { inputLogLineList := stores.inputLogLineList,
                   outputLogLineList := recordWith outputEntryMatches stores.outputLogLineList r }
        (by simp only [htc]; omega)
      simp only [htc] at this
      simp only [List.countP_cons, hc, decide_True, if_true, decide_False, if_false,
        reduceCtorEq]
      omega

theorem countP_classify_add (logLines : List LogLine) :
    logLines.countP (fun r => classify r = Direction.Inbound)
      + logLines.countP (fun r => classify r = Direction.Outbound) = logLines.length := by
  induction logLines with
  | nil => rfl
  | cons r rest ih =>
    cases hc : classify r <;> simp [List.countP_cons, hc] <;> omega

/-- C15: when fewer than `2^32` records are processed from two empty lists (so that
no counter can wrap), the counts of the inbound list add up to the number of records
classified inbound, the counts of the outbound list add up to the number of records
classified outbound, and together they add up to the number of records. -/
theorem C15_count_conservation (logLines : List LogLine)
    (h : logLines.length < UINT32_MOD) :
    totalCount (processLog logLines).inputLogLineList
        = logLines.countP (fun r => classify r = Direction.Inbound)
    ∧ totalCount (processLog logLines).outputLogLineList
        = logLines.countP (fun r => classify r = Direction.Outbound)
    ∧ totalCount (processLog logLines).inputLogLineList
        + totalCount (processLog logLines).outputLogLineList = logLines.length := by
  have := totalCount_foldl_processLogLine logLines
    { inputLogLineList := [], outputLogLineList := [] }
    (by simpa [totalCount] using h)
  simp only [totalCount, List.map_nil, List.sum_nil, Nat.zero_add] at this
  unfold processLog
  refine ⟨this.1, this.2, ?_⟩
  unfold totalCount
  rw [this.1, this.2]
  exact countP_classify_add logLines

/-- Witness of C15: the lines of scenarios A to D, five records in all. -/
theorem C15_count_conservation_witness :
    [scenarioA1, scenarioC1, scenarioA2, scenarioD2, scenarioB2].length < UINT32_MOD
    ∧ totalCount (processLog
        [scenarioA1, scenarioC1, scenarioA2, scenarioD2, scenarioB2]).inputLogLineList
        = [scenarioA1, scenarioC1, scenarioA2, scenarioD2, scenarioB2].countP
            (fun r => classify r = Direction.Inbound)
    ∧ totalCount (processLog
        [scenarioA1, scenarioC1, scenarioA2, scenarioD2, scenarioB2]).outputLogLineList
        = [scenarioA1, scenarioC1, scenarioA2, scenarioD2, scenarioB2].countP
            (fun r => classify r = Direction.Outbound)
    ∧ totalCount (processLog
        [scenarioA1, scenarioC1, scenarioA2, scenarioD2, scenarioB2]).inputLogLineList
        + totalCount (processLog
            [scenarioA1, scenarioC1, scenarioA2, scenarioD2, scenarioB2]).outputLogLineList
        = [scenarioA1, scenarioC1, scenarioA2, scenarioD2, scenarioB2].length :=
  ⟨by decide,
    C15_count_conservation [scenarioA1, scenarioC1, scenarioA2, scenarioD2, scenarioB2]
      (by decide)⟩

theorem foldl_processLogLine_split (logLines : List LogLine) :
    ∀ stores : Stores,
      (logLines.foldl processLogLine stores).inputLogLineList
          = (logLines.filter (fun r => classify r = Direction.Inbound)).foldl
              filterInputLogLine stores.inputLogLineList
      ∧ (logLines.foldl processLogLine stores).outputLogLineList
          = (logLines.filter (fun r => classify r = Direction.Outbound)).foldl
              filterOutputLogLine stores.outputLogLineList := by
  induction logLines with
  | nil => intro stores; exact ⟨rfl, rfl⟩
  | cons r rest ih =>
    intro stores
    rw [List.foldl_cons]
    cases hc : classify r
    · have hstep := processLogLine_eq_classify stores r
      rw [hc] at hstep
      rw [hstep]
      simpa [List.filter_cons, hc] using ih _
    · have hstep := processLogLine_eq_classify stores r
      rw [hc] at hstep
      rw [hstep]
      simpa [List.filter_cons, hc] using ih _

/-- C16: processing a record classified inbound leaves the outbound list exactly as
it was, processing a record classified outbound leaves the inbound list exactly as
it was; hence the final inbound list is what `filterInputLogLine` builds from the
inbound records alone, in their order, and the final outbound list is what
`filterOutputLogLine` builds from the outbound records alone. -/
theorem C16_store_independence (stores : Stores) (r : LogLine) (logLines : List LogLine) :
    (classify r = Direction.Inbound →
        (processLogLine stores r).outputLogLineList = stores.outputLogLineList)
    ∧ (classify r = Direction.Outbound →
        (processLogLine stores r).inputLogLineList = stores.inputLogLineList)
    ∧ (processLog logLines).inputLogLineList
        = (logLines.filter (fun r => classify r = Direction.Inbound)).foldl
            filterInputLogLine []
    ∧ (processLog logLines).outputLogLineList
        = (logLines.filter (fun r => classify r = Direction.Outbound)).foldl
            filterOutputLogLine [] := by
  refine ⟨?_, ?_, (foldl_processLogLine_split logLines _).1,
    (foldl_processLogLine_split logLines _).2⟩
  · intro hc
    rw [processLogLine_eq_classify, hc]
  · intro hc
    rw [processLogLine_eq_classify, hc]

/-- Witness of C16: an inbound and an outbound record against non-empty lists. -/
theorem C16_store_independence_witness :
    classify scenarioA2 = Direction.Inbound
    ∧ (processLogLine { inputLogLineList := [scenarioA1], outputLogLineList := [scenarioC1] }
        scenarioA2).outputLogLineList = [scenarioC1] :=
  ⟨by decide,
    (C16_store_independence
      { inputLogLineList := [scenarioA1], outputLogLineList := [scenarioC1] }
      scenarioA2 []).1 (by decide)⟩

/-! ## The inbound test as a relation -/

/-- C17, the code at the failing input: two inbound records that differ only in the
source address (`SRC=10.0.0.1`, then `SRC=10.0.0.2`) are not folded by
`filterInputLogLine`: the list ends with two entries, each with `count = 1`,
because line 257 requires equal source addresses. -/
theorem C17_source_address_not_ignored :
    otherSource = { scenarioA1 with sourceIPAddr := "10.0.0.2" }
    ∧ inputEntryMatches { scenarioA1 with count := 1 } otherSource = false
    ∧ filterInputLogLine (filterInputLogLine [] scenarioA1) otherSource
        = [{ scenarioA1 with count := 1 }, { otherSource with count := 1 }]
    ∧ filterInputLogLine (filterInputLogLine [] scenarioA1) otherSource
        ≠ [{ scenarioA1 with count := 2 }] := by
  decide

/-- C20 (as amended): the inbound test of `filterInputLogLine` is reflexive and
symmetric, but it is not transitive, so it is not an equivalence relation and does
not partition the inbound records into classes. -/
theorem C20_inbound_reflexive_symmetric_only :
    (∀ a : LogLine, inputEntryMatches a a = true)
    ∧ (∀ a b : LogLine, inputEntryMatches a b = true → inputEntryMatches b a = true)
    ∧ ¬ (∀ a b c : LogLine, inputEntryMatches a b = true → inputEntryMatches b c = true →
          inputEntryMatches a c = true) := by
  refine ⟨?_, ?_, ?_⟩
  · intro a
    rw [inputEntryMatches_iff]
    exact ⟨rfl, rfl, rfl, rfl, rfl, Or.inl rfl⟩
  · intro a b h
    rw [inputEntryMatches_symm]
    exact h
  · intro htrans
    have := htrans ports12 ports14 ports34 (by decide) (by decide)
    exact absurd this (by decide)

/-- Counterexample to C20 as stated: three inbound records equal except for their
ports `(1,2)`, `(1,4)`, `(3,4)`. The first matches the second (same `SPT`), the
second matches the third (same `DPT`), the first does not match the third. -/
theorem C20_counterexample_not_transitive :
    inputEntryMatches ports12 ports14 = true
    ∧ inputEntryMatches ports14 ports34 = true
    ∧ inputEntryMatches ports12 ports34 = false := by
  decide

/-! ## The outbound list as a grouping by key -/

theorem recordWith_cons_of_match (cond : LogLine → LogLine → Bool) (e : LogLine)
    (l : List LogLine) (r : LogLine) (h : cond e r = true) :
    recordWith cond (e :: l) r = bumpCount e :: l := by
  simp [recordWith, scanWith, h]

theorem recordWith_cons_of_no_match (cond : LogLine → LogLine → Bool) (e : LogLine)
    (l : List LogLine) (r : LogLine) (h : cond e r = false) :
    recordWith cond (e :: l) r = e :: recordWith cond l r := by
  cases hs : scanWith cond r l <;> simp [recordWith, scanWith, h, hs]

theorem foldl_recordWith_cons (cond : LogLine → LogLine → Bool) (hkey : IgnoresCount cond)
    (logLines : List LogLine) :
    ∀ (e : LogLine) (l : List LogLine), e.count < UINT32_MOD →
      logLines.foldl (recordWith cond) (e :: l)
        = { e with count := (e.count + logLines.countP (fun x => cond e x)) % UINT32_MOD }
            :: (logLines.filter (fun x => !cond e x)).foldl (recordWith cond) l := by
  induction logLines with
  | nil =>
    intro e l he
    simp [Nat.mod_eq_of_lt he]
  | cons r rest ih =>
    intro e l he
    rw [List.foldl_cons]
    cases hc : cond e r with
    | true =>
      rw [recordWith_cons_of_match cond e l r hc]
      have hlt : (bumpCount e).count < UINT32_MOD := Nat.mod_lt _ (by decide)
      rw [ih (bumpCount e) l hlt]
      have hsame : ∀ x, cond (bumpCount e) x = cond e x := by
        intro x
        rw [hkey (bumpCount e) x, hkey e x, withoutCount_bumpCount]
      simp only [hsame, List.countP_cons, hc, if_true, List.filter_cons, Bool.not_true,
        Bool.false_eq_true, if_false]
      congr 1
      show ({ e with count :=
          ((e.count + 1) % UINT32_MOD + List.countP (fun x => cond e x) rest) % UINT32_MOD }
            : LogLine)
        = { e with count :=
          (e.count + (List.countP (fun x => cond e x) rest + 1)) % UINT32_MOD }
      have : ((e.count + 1) % UINT32_MOD + List.countP (fun x => cond e x) rest) % UINT32_MOD
          = (e.count + (List.countP (fun x => cond e x) rest + 1)) % UINT32_MOD := by
        unfold UINT32_MOD; omega
      rw [this]
    | false =>
      rw [recordWith_cons_of_no_match cond e l r hc]
      rw [ih e (recordWith cond l r) he]
      simp [List.countP_cons, hc, List.filter_cons]

theorem outputEntryMatches_iff_key (e x : LogLine) :
    outputEntryMatches e x = true ↔ outboundKey e = outboundKey x := by
  rw [outputEntryMatches_iff]
  simp [outboundKey, Prod.ext_iff]

theorem firstOfEachKey_filter (k : String × String × String × String × Nat) :
    ∀ l : List LogLine,
      firstOfEachKey (l.filter (fun x => outboundKey x ≠ k))
        = (firstOfEachKey l).filter (fun x => outboundKey x ≠ k) := by
  intro l
  induction l with
  | nil => rfl
  | cons a rest ih =>
    by_cases ha : outboundKey a = k
    · have h1 : (a :: rest).filter (fun x => outboundKey x ≠ k)
          = rest.filter (fun x => outboundKey x ≠ k) := by
        simp [List.filter_cons, ha]
      rw [h1, ih]
      simp only [firstOfEachKey, List.filter_cons, ha, ne_eq, not_true_eq_false,
        decide_False, Bool.false_eq_true, if_false, List.filter_filter]
      apply List.filter_congr
      intro x _
      by_cases hx : outboundKey x = k <;> simp [hx]
    · have h1 : (a :: rest).filter (fun x => outboundKey x ≠ k)
          = a :: rest.filter (fun x => outboundKey x ≠ k) := by
        simp [List.filter_cons, ha]
      rw [h1]
      simp only [firstOfEachKey, ih, List.filter_cons, ha, ne_eq, not_false_eq_true,
        decide_True, if_true, List.filter_filter]
      congr 1
      apply List.filter_congr
      intro x _
      exact Bool.and_comm _ _

theorem referenceGrouping_cons (r : LogLine) (rest : List LogLine) :
    referenceGrouping (r :: rest)
      = { r with count := rest.countP (fun x => outboundKey x = outboundKey r) + 1 }
          :: referenceGrouping (rest.filter (fun x => outboundKey x ≠ outboundKey r)) := by
  unfold referenceGrouping
  rw [firstOfEachKey_filter]
  simp only [firstOfEachKey, List.map_cons]
  congr 1
  · simp [List.countP_cons]
  · apply List.map_congr_left
    intro a ha
    have hak : outboundKey a ≠ outboundKey r := by
      simpa using (List.mem_filter.1 ha).2
    have hcount : (r :: rest).countP (fun x => outboundKey x = outboundKey a)
        = (rest.filter (fun x => outboundKey x ≠ outboundKey r)).countP
            (fun x => outboundKey x = outboundKey a) := by
      rw [List.countP_filter, List.countP_cons_of_neg]
      · apply List.countP_congr
        intro x _
        constructor
        · intro hx
          have hx' : outboundKey x = outboundKey a := by simpa using hx
          simp [hx', hak]
        · intro hx
          simp at hx
          simp [hx.1]
      · simpa using fun h => hak h.symm
    rw [hcount]

theorem foldl_filterOutputLogLine_eq_grouping (n : Nat) :
    ∀ logLines : List LogLine, logLines.length ≤ n →
      logLines.foldl filterOutputLogLine []
        = (referenceGrouping logLines).map
            (fun e => { e with count := e.count % UINT32_MOD }) := by
  induction n with
  | zero =>
    intro logLines hlen
    have : logLines = [] := List.length_eq_zero.1 (Nat.le_zero.1 hlen)
    subst this
    rfl
  | succ n ih =>
    intro logLines hlen
    cases logLines with
    | nil => rfl
    | cons r rest =>
      rw [List.length_cons] at hlen
      rw [referenceGrouping_cons, List.map_cons, List.foldl_cons]
      have h0 : filterOutputLogLine [] r = [{ r with count := 1 }] := rfl
      rw [h0, filterOutputLogLine_eq_recordWith,
        foldl_recordWith_cons outputEntryMatches outputEntryMatches_ignoresCount rest
          { r with count := 1 } [] (show 1 < UINT32_MOD by decide)]
      have hcount : rest.countP (fun x => outputEntryMatches { r with count := 1 } x)
          = rest.countP (fun x => outboundKey x = outboundKey r) := by
        apply List.countP_congr
        intro x _
        rw [outputEntryMatches_iff_key]
        constructor
        · intro h; simpa using h.symm
        · intro h
          have h' : outboundKey x = outboundKey r := by simpa using h
          exact h'.symm
      have hfilter : rest.filter (fun x => !outputEntryMatches { r with count := 1 } x)
          = rest.filter (fun x => outboundKey x ≠ outboundKey r) := by
        apply List.filter_congr
        intro x _
        by_cases hx : outboundKey x = outboundKey r
        · have : outputEntryMatches { r with count := 1 } x = true :=
            (outputEntryMatches_iff_key _ _).2 hx.symm
          simp [this, hx]
        · have : outputEntryMatches { r with count := 1 } x = false := by
            rw [Bool.eq_false_iff, Ne, outputEntryMatches_iff_key]
            exact fun h => hx h.symm
          simp [this, hx]
      rw [hcount, hfilter, ← filterOutputLogLine_eq_recordWith,
        ih _ (Nat.le_trans (List.length_filter_le _ _) (by omega))]
      congr 1
      show ({ r with count :=
          (1 + List.countP (fun x => outboundKey x = outboundKey r) rest) % UINT32_MOD }
            : LogLine)
        = { r with count :=
          (List.countP (fun x => outboundKey x = outboundKey r) rest + 1) % UINT32_MOD }
      rw [Nat.add_comm]

theorem mem_of_mem_firstOfEachKey : ∀ (l : List LogLine) (r : LogLine),
    r ∈ firstOfEachKey l → r ∈ l := by
  intro l
  induction l with
  | nil => intro r h; cases h
  | cons a rest ih =>
    intro r h
    rcases List.mem_cons.1 h with rfl | h
    · exact List.mem_cons_self _ _
    · exact List.mem_cons_of_mem _ (ih r (List.mem_filter.1 h).1)

theorem key_mem_firstOfEachKey : ∀ (l : List LogLine) (r : LogLine),
    r ∈ l → outboundKey r ∈ (firstOfEachKey l).map outboundKey := by
  intro l
  induction l with
  | nil => intro r h; cases h
  | cons a rest ih =>
    intro r h
    by_cases hk : outboundKey r = outboundKey a
    · rw [hk]
      exact List.mem_map.2 ⟨a, List.mem_cons_self _ _, rfl⟩
    · rcases List.mem_cons.1 h with rfl | h
      · exact absurd rfl hk
      · obtain ⟨x, hx, hxk⟩ := List.mem_map.1 (ih r h)
        refine List.mem_map.2 ⟨x, List.mem_cons_of_mem _ (List.mem_filter.2 ⟨hx, ?_⟩), hxk⟩
        simpa [hxk] using hk

theorem nodup_keys_firstOfEachKey : ∀ l : List LogLine,
    ((firstOfEachKey l).map outboundKey).Nodup := by
  intro l
  induction l with
  | nil => exact List.nodup_nil
  | cons a rest ih =>
    simp only [firstOfEachKey, List.map_cons, List.nodup_cons]
    constructor
    · intro hmem
      obtain ⟨x, hx, hxk⟩ := List.mem_map.1 hmem
      have := (List.mem_filter.1 hx).2
      simp [hxk] at this
    · exact ih.sublist ((List.filter_sublist _).map outboundKey)

theorem referenceGrouping_keys (l : List LogLine) :
    (referenceGrouping l).map outboundKey = (firstOfEachKey l).map outboundKey := by
  unfold referenceGrouping
  rw [List.map_map]
  apply List.map_congr_left
  intro a _
  rfl

theorem referenceGrouping_replicate (r : LogLine) (n : Nat) :
    referenceGrouping (List.replicate (n + 1) r) = [{ r with count := n + 1 }] := by
  rw [List.replicate_succ, referenceGrouping_cons, List.countP_replicate,
    List.filter_replicate_of_neg (by simp)]
  simp [referenceGrouping, firstOfEachKey]

/-- C19 (as amended): for every sequence of records fed to `filterOutputLogLine`
from the empty list, the resulting list is the reference grouping of the sequence
with every count taken modulo `2^32`: one entry for each distinct key
(`in`, `out`, `destIPAddr`, `protocol`, `destPort`), in order of first occurrence,
carrying the fields of the first record of its key. When no key is shared by `2^32`
or more records the counts are exactly the numbers of records of each key. The keys
of the reference grouping are pairwise distinct and cover every record. -/
theorem C19_outbound_reference_grouping (logLines : List LogLine) :
    logLines.foldl filterOutputLogLine []
        = (referenceGrouping logLines).map
            (fun e => { e with count := e.count % UINT32_MOD })
    ∧ ((∀ r ∈ logLines,
          logLines.countP (fun x => outboundKey x = outboundKey r) < UINT32_MOD) →
        logLines.foldl filterOutputLogLine [] = referenceGrouping logLines)
    ∧ ((referenceGrouping logLines).map outboundKey).Nodup
    ∧ (∀ r ∈ logLines, outboundKey r ∈ (referenceGrouping logLines).map outboundKey) := by
  have hmain := foldl_filterOutputLogLine_eq_grouping logLines.length logLines (Nat.le_refl _)
  refine ⟨hmain, ?_, ?_, ?_⟩
  · intro hlt
    rw [hmain]
    have hid : ∀ e ∈ referenceGrouping logLines,
        ({ e with count := e.count % UINT32_MOD } : LogLine) = e := by
      intro e he
      obtain ⟨r, hr, rfl⟩ := List.mem_map.1 he
      have := hlt r (mem_of_mem_firstOfEachKey logLines r hr)
      show ({ r with count :=
          (List.countP (fun x => outboundKey x = outboundKey r) logLines) % UINT32_MOD }
            : LogLine)
        = { r with count := List.countP (fun x => outboundKey x = outboundKey r) logLines }
      rw [Nat.mod_eq_of_lt this]
    rw [List.map_congr_left hid, List.map_id']
  · rw [referenceGrouping_keys]
    exact nodup_keys_firstOfEachKey logLines
  · intro r hr
    rw [referenceGrouping_keys]
    exact key_mem_firstOfEachKey logLines r hr

/-- Witness of C19: the outbound lines of scenarios C and D, mixed. -/
theorem C19_outbound_reference_grouping_witness :
    (∀ r ∈ [scenarioC1, scenarioD2, scenarioC2, scenarioC1],
        [scenarioC1, scenarioD2, scenarioC2, scenarioC1].countP
          (fun x => outboundKey x = outboundKey r) < UINT32_MOD)
    ∧ [scenarioC1, scenarioD2, scenarioC2, scenarioC1].foldl filterOutputLogLine []
        = referenceGrouping [scenarioC1, scenarioD2, scenarioC2, scenarioC1]
    ∧ referenceGrouping [scenarioC1, scenarioD2, scenarioC2, scenarioC1]
        = [{ scenarioC1 with count := 3 }, { scenarioD2 with count := 1 }] :=
  ⟨by decide,
    (C19_outbound_reference_grouping [scenarioC1, scenarioD2, scenarioC2, scenarioC1]).2.1
      (by decide),
    by decide⟩

/-- Counterexample to C19 as stated: the outbound record of scenario C fed 4294967296
times. The reference grouping has one entry with `count = 4294967296`, the number
of records of that key; the list built by `filterOutputLogLine` has that entry with
`count = 0`. -/
theorem C19_counterexample_count_wraps :
    (List.replicate 4294967296 scenarioC1).foldl filterOutputLogLine []
        = [{ scenarioC1 with count := 0 }]
    ∧ referenceGrouping (List.replicate 4294967296 scenarioC1)
        = [{ scenarioC1 with count := 4294967296 }]
    ∧ (List.replicate 4294967296 scenarioC1).foldl filterOutputLogLine []
        ≠ referenceGrouping (List.replicate 4294967296 scenarioC1) := by
  have h2 : referenceGrouping (List.replicate 4294967296 scenarioC1)
      = [{ scenarioC1 with count := 4294967296 }] :=
    referenceGrouping_replicate scenarioC1 4294967295
  have h1 : (List.replicate 4294967296 scenarioC1).foldl filterOutputLogLine []
      = [{ scenarioC1 with count := 0 }] := by
    rw [foldl_filterOutputLogLine_eq_grouping 4294967296
      (List.replicate 4294967296 scenarioC1) (by rw [List.length_replicate]), h2]
    rfl
  refine ⟨h1, h2, ?_⟩
  rw [h1, h2]
  decide

/-! ## The field extractor -/

theorem initLogLine_lineA :
    b45c9f7e_initLogLine chooseFirst lineA = some { scenarioA1 with count := 0 }
    ∧ b45c9f7e_initLogLine chooseAgreed lineA = some { scenarioA1 with count := 0 } := by
  decide

theorem initLogLine_lineAPermuted :
    b45c9f7e_initLogLine chooseFirst lineAPermuted = some { scenarioA1 with count := 0 }
    ∧ b45c9f7e_initLogLine chooseAgreed lineAPermuted = some { scenarioA1 with count := 0 } := by
  decide

theorem initLogLine_lineAExtra :
    b45c9f7e_initLogLine chooseFirst lineAExtra = some { scenarioA1 with count := 0 }
    ∧ b45c9f7e_initLogLine chooseAgreed lineAExtra = some { scenarioA1 with count := 0 } := by
  decide

theorem initLogLine_chooseFirst_two_sources :
    (splitOnSpaces lineTwoSources.data).Perm (splitOnSpaces lineTwoSourcesSwapped.data)
    ∧ (b45c9f7e_initLogLine chooseFirst lineTwoSources).map LogLine.sourceIPAddr
        = some "1.1.1.1"
    ∧ (b45c9f7e_initLogLine chooseFirst lineTwoSourcesSwapped).map LogLine.sourceIPAddr
        = some "2.2.2.2" := by
  decide

theorem keys_firstOfEachKey_perm (l l' : List LogLine) (h : l.Perm l') :
    ((firstOfEachKey l).map outboundKey).Perm ((firstOfEachKey l').map outboundKey) := by
  rw [List.perm_ext_iff_of_nodup (nodup_keys_firstOfEachKey l) (nodup_keys_firstOfEachKey l')]
  intro k
  constructor
  · intro hk
    obtain ⟨x, hx, rfl⟩ := List.mem_map.1 hk
    exact key_mem_firstOfEachKey l' x (h.mem_iff.1 (mem_of_mem_firstOfEachKey l x hx))
  · intro hk
    obtain ⟨x, hx, rfl⟩ := List.mem_map.1 hk
    exact key_mem_firstOfEachKey l x (h.mem_iff.2 (mem_of_mem_firstOfEachKey l' x hx))

theorem counts_foldl_filterOutputLogLine (l : List LogLine) :
    (l.foldl filterOutputLogLine []).map LogLine.count
      = ((firstOfEachKey l).map outboundKey).map
          (fun k => l.countP (fun x => outboundKey x = k) % UINT32_MOD) := by
  rw [foldl_filterOutputLogLine_eq_grouping l.length l (Nat.le_refl _)]
  unfold referenceGrouping
  simp only [List.map_map]
  apply List.map_congr_left
  intro a _
  rfl

/-- C21: the inbound aggregation depends on the order of the records: the three
records with ports `(1,2)`, `(3,4)`, `(1,4)` leave two entries when fed in that
order and one entry when fed as `(1,4)`, `(1,2)`, `(3,4)`. The outbound aggregation
does not: two sequences that are permutations of each other leave outbound lists
with the same number of entries and the same counts up to order. -/
theorem C21_order_sensitivity (l l' : List LogLine) (h : l.Perm l') :
    ([ports12, ports34, ports14].Perm [ports14, ports12, ports34]
      ∧ ([ports12, ports34, ports14].foldl filterInputLogLine []).length = 2
      ∧ ([ports14, ports12, ports34].foldl filterInputLogLine []).length = 1)
    ∧ (l.foldl filterOutputLogLine []).length = (l'.foldl filterOutputLogLine []).length
    ∧ ((l.foldl filterOutputLogLine []).map LogLine.count).Perm
        ((l'.foldl filterOutputLogLine []).map LogLine.count) := by
  have hcounts : ((l.foldl filterOutputLogLine []).map LogLine.count).Perm
      ((l'.foldl filterOutputLogLine []).map LogLine.count) := by
    rw [counts_foldl_filterOutputLogLine l, counts_foldl_filterOutputLogLine l']
    have hf : (fun k => l.countP (fun x => outboundKey x = k) % UINT32_MOD)
        = (fun k => l'.countP (fun x => outboundKey x = k) % UINT32_MOD) := by
      funext k
      rw [h.countP_eq]
    rw [hf]
    exact (keys_firstOfEachKey_perm l l' h).map _
  refine ⟨⟨by decide, by decide, by decide⟩, ?_, hcounts⟩
  have := hcounts.length_eq
  simpa using this

/-- Witness of C21: the outbound lines of scenarios C and D in two orders. -/
theorem C21_order_sensitivity_witness :
    [scenarioC1, scenarioD2, scenarioC2].Perm [scenarioD2, scenarioC2, scenarioC1]
    ∧ ([scenarioC1, scenarioD2, scenarioC2].foldl filterOutputLogLine []).length
        = ([scenarioD2, scenarioC2, scenarioC1].foldl filterOutputLogLine []).length
    ∧ (([scenarioC1, scenarioD2, scenarioC2].foldl filterOutputLogLine []).map
          LogLine.count).Perm
        (([scenarioD2, scenarioC2, scenarioC1].foldl filterOutputLogLine []).map
          LogLine.count) :=
  ⟨by decide,
    (C21_order_sensitivity [scenarioC1, scenarioD2, scenarioC2]
      [scenarioD2, scenarioC2, scenarioC1] (by decide)).2⟩

theorem policyMatches_ignoresCount (d : Direction) : IgnoresCount (policyMatches d) := by
  cases d
  · exact inputEntryMatches_ignoresCount
  · exact outputEntryMatches_ignoresCount

theorem policyMatches_refl (d : Direction) (r : LogLine) : policyMatches d r r = true := by
  cases d
  · show inputEntryMatches r r = true
    rw [inputEntryMatches_iff]
    exact ⟨rfl, rfl, rfl, rfl, rfl, Or.inl rfl⟩
  · show outputEntryMatches r r = true
    rw [outputEntryMatches_iff]
    exact ⟨rfl, rfl, rfl, rfl, rfl⟩

theorem exists_match_after_recordWith (cond : LogLine → LogLine → Bool)
    (hkey : IgnoresCount cond) (hrefl : ∀ r, cond r r = true) (l : List LogLine) (r : LogLine) :
    ∃ e ∈ recordWith cond l r, cond e r = true := by
  by_cases hm : ∃ e ∈ l, cond e r = true
  · obtain ⟨i, e, hi, hce, -, hset⟩ := recordWith_of_match cond l r hm
    obtain ⟨hlt, rfl⟩ := List.getElem?_eq_some.1 hi
    refine ⟨bumpCount l[i], ?_, ?_⟩
    · rw [hset]
      apply List.getElem?_mem (n := i)
      simp [List.getElem?_set, hlt]
    · rw [hkey, withoutCount_bumpCount, ← hkey]
      exact hce
  · have hno : ∀ e ∈ l, cond e r = false := by
      intro e he
      cases hc : cond e r with
      | false => rfl
      | true => exact absurd ⟨e, he, hc⟩ hm
    refine ⟨{ r with count := 1 }, ?_, ?_⟩
    · rw [recordWith_of_no_match cond l r hno]
      simp
    · have h1 : withoutCount { r with count := 1 } = withoutCount r := rfl
      rw [hkey, h1, ← hkey]
      exact hrefl r

/-- C22 (as amended): in every list `l` of either direction (reachable or not), once
a record `r` has been recorded, recording `r` again finds a matching entry: the
length is unchanged and exactly one entry changes, the lowest-index entry that
matches `r`, whose count becomes `(count + 1) mod 2^32` (so it grows by exactly 1
unless it was 4294967295). -/
theorem C22_rerecording_never_inserts (d : Direction) (l : List LogLine) (r : LogLine) :
    ∃ i e, (recordEvent d l r)[i]? = some e ∧ policyMatches d e r = true
      ∧ (∀ j a, j < i → (recordEvent d l r)[j]? = some a → policyMatches d a r = false)
      ∧ recordEvent d (recordEvent d l r) r
          = (recordEvent d l r).set i { e with count := (e.count + 1) % UINT32_MOD }
      ∧ (e.count + 1 < UINT32_MOD →
          recordEvent d (recordEvent d l r) r
            = (recordEvent d l r).set i { e with count := e.count + 1 })
      ∧ (recordEvent d (recordEvent d l r) r).length = (recordEvent d l r).length := by
  rw [recordEvent_eq_recordWith]
  obtain ⟨i, e, hi, hce, hmin, hset⟩ :=
    recordWith_of_match (policyMatches d) (recordWith (policyMatches d) l r) r
      (exists_match_after_recordWith (policyMatches d) (policyMatches_ignoresCount d)
        (policyMatches_refl d) l r)
  refine ⟨i, e, hi, hce, hmin, hset, ?_, ?_⟩
  · intro hlt
    rw [hset, bumpCount, Nat.mod_eq_of_lt hlt]
  · rw [hset, List.length_set]

/-- Counterexample to C22 as stated: the inbound list holds one entry with
`count = 4294967294` that matches the record. After the first recording its count
is 4294967295; after the second recording it is `0`, so it did not grow by 1. -/
theorem C22_counterexample_count_wraps :
    recordEvent Direction.Inbound [nearlySaturatedEntry] scenarioA2
        = [{ scenarioA1 with count := 4294967295 }]
    ∧ recordEvent Direction.Inbound
          (recordEvent Direction.Inbound [nearlySaturatedEntry] scenarioA2) scenarioA2
        = [{ scenarioA1 with count := 0 }]
    ∧ recordEvent Direction.Inbound
          (recordEvent Direction.Inbound [nearlySaturatedEntry] scenarioA2) scenarioA2
        ≠ [{ scenarioA1 with count := 4294967295 + 1 }] := by
  decide

end Firelog

namespace Nettuner

/-! ## `performTuningCalcs` -/

theorem aligned_spec (cache mss : Nat) (hmss : 0 < mss) (hcache : cache < UINT32_MOD) :
    mss ∣ ((cache / mss) * mss) % UINT32_MOD
    ∧ ((cache / mss) * mss) % UINT32_MOD ≤ cache
    ∧ (∀ m : Nat, mss ∣ m → m ≤ cache → m ≤ ((cache / mss) * mss) % UINT32_MOD)
    ∧ (((cache / mss) * mss) % UINT32_MOD = 0 ↔ cache < mss)
    ∧ (mss ≤ cache → cache < ((cache / mss) * mss) % UINT32_MOD + mss) := by
  have hle : (cache / mss) * mss ≤ cache := Nat.div_mul_le_self cache mss
  have hmod : ((cache / mss) * mss) % UINT32_MOD = (cache / mss) * mss :=
    Nat.mod_eq_of_lt (Nat.lt_of_le_of_lt hle hcache)
  have hlt : cache < (cache / mss) * mss + mss := by
    have h1 := Nat.div_add_mod cache mss
    have h2 := Nat.mod_lt cache hmss
    rw [Nat.mul_comm] at h1
    omega
  rw [hmod]
  refine ⟨Nat.dvd_mul_left _ _, hle, ?_, ?_, fun _ => hlt⟩
  · rintro m ⟨q, rfl⟩ hm
    have hq : q ≤ cache / mss := by
      rw [Nat.le_div_iff_mul_le hmss, Nat.mul_comm]
      exact hm
    rw [Nat.mul_comm mss q]
    exact Nat.mul_le_mul_right mss hq
  · constructor
    · intro h0
      omega
    · intro hc
      rw [Nat.div_eq_of_lt hc, Nat.zero_mul]

/-- C23: for every `TuningParams` (with a 32-bit `levelOneDCacheSize`) whose
`tcp_mss` and `udp_mss` come out positive, `performTuningCalcs` returns, and it sets
`aligned_tcp_mss` (and likewise `aligned_udp_mss`) to the largest multiple of the MSS
that does not exceed `levelOneDCacheSize`: it is `0` exactly when the cache is
smaller than the MSS, and otherwise lies in `(levelOneDCacheSize - mss,
levelOneDCacheSize]`. -/
theorem C23_aligned_mss {F : Type} (fl : FloatArith F) (sizes : HeaderSizes)
    (p : TuningParams F) (hcache : p.levelOneDCacheSize < UINT32_MOD)
    (htcp : 0 < tcpMss sizes p) (hudp : 0 < udpMss sizes p) :
    ∃ c : TuningCalcs, performTuningCalcs fl sizes p = some c
      ∧ c.tcp_mss = tcpMss sizes p ∧ c.udp_mss = udpMss sizes p
      ∧ (c.tcp_mss ∣ c.aligned_tcp_mss ∧ c.aligned_tcp_mss ≤ p.levelOneDCacheSize
          ∧ (∀ m : Nat, c.tcp_mss ∣ m → m ≤ p.levelOneDCacheSize → m ≤ c.aligned_tcp_mss)
          ∧ (c.aligned_tcp_mss = 0 ↔ p.levelOneDCacheSize < c.tcp_mss)
          ∧ (c.tcp_mss ≤ p.levelOneDCacheSize →
              p.levelOneDCacheSize < c.aligned_tcp_mss + c.tcp_mss))
      ∧ (c.udp_mss ∣ c.aligned_udp_mss ∧ c.aligned_udp_mss ≤ p.levelOneDCacheSize
          ∧ (∀ m : Nat, c.udp_mss ∣ m → m ≤ p.levelOneDCacheSize → m ≤ c.aligned_udp_mss)
          ∧ (c.aligned_udp_mss = 0 ↔ p.levelOneDCacheSize < c.udp_mss)
          ∧ (c.udp_mss ≤ p.levelOneDCacheSize →
              p.levelOneDCacheSize < c.aligned_udp_mss + c.udp_mss)) := by
  have hne : ¬ (tcpMss sizes p = 0 ∨ udpMss sizes p = 0) := by omega
  have hres : performTuningCalcs fl sizes p = some
      { tcp_mss := tcpMss sizes p
        udp_mss := udpMss sizes p
        aligned_tcp_mss :=
          ((p.levelOneDCacheSize / tcpMss sizes p) * tcpMss sizes p) % UINT32_MOD
        aligned_udp_mss :=
          ((p.levelOneDCacheSize / udpMss sizes p) * udpMss sizes p) % UINT32_MOD
        dlFramesPerSecond := fl.framesPerSecond p.downloadSpeed p.mtu % UINT32_MOD
        ulFramesPerSecond := fl.framesPerSecond p.uploadSpeed p.mtu % UINT32_MOD } := by
    simp only [performTuningCalcs, hne, if_false]
  refine ⟨_, hres, rfl, rfl, ?_, ?_⟩
  · exact aligned_spec p.levelOneDCacheSize (tcpMss sizes p) htcp hcache
  · exact aligned_spec p.levelOneDCacheSize (udpMss sizes p) hudp hcache

/-- Witness of C23: MTU 1500 and a 32 KiB level 1 data cache. -/
theorem C23_aligned_mss_witness :
    (sampleParams.levelOneDCacheSize < UINT32_MOD
      ∧ 0 < tcpMss sampleSizes sampleParams ∧ 0 < udpMss sampleSizes sampleParams)
    ∧ ∃ c : TuningCalcs, performTuningCalcs sampleFloat sampleSizes sampleParams = some c
      ∧ c.tcp_mss = tcpMss sampleSizes sampleParams
      ∧ c.udp_mss = udpMss sampleSizes sampleParams
      ∧ (c.tcp_mss ∣ c.aligned_tcp_mss ∧ c.aligned_tcp_mss ≤ sampleParams.levelOneDCacheSize
          ∧ (∀ m : Nat, c.tcp_mss ∣ m → m ≤ sampleParams.levelOneDCacheSize →
              m ≤ c.aligned_tcp_mss)
          ∧ (c.aligned_tcp_mss = 0 ↔ sampleParams.levelOneDCacheSize < c.tcp_mss)
          ∧ (c.tcp_mss ≤ sampleParams.levelOneDCacheSize →
              sampleParams.levelOneDCacheSize < c.aligned_tcp_mss + c.tcp_mss))
      ∧ (c.udp_mss ∣ c.aligned_udp_mss ∧ c.aligned_udp_mss ≤ sampleParams.levelOneDCacheSize
          ∧ (∀ m : Nat, c.udp_mss ∣ m → m ≤ sampleParams.levelOneDCacheSize →
              m ≤ c.aligned_udp_mss)
          ∧ (c.aligned_udp_mss = 0 ↔ sampleParams.levelOneDCacheSize < c.udp_mss)
          ∧ (c.udp_mss ≤ sampleParams.levelOneDCacheSize →
              sampleParams.levelOneDCacheSize < c.aligned_udp_mss + c.udp_mss)) :=
  ⟨⟨by decide, by decide, by decide⟩,
    C23_aligned_mss sampleFloat sampleSizes sampleParams (by decide) (by decide) (by decide)⟩

theorem sample_mss :
    tcpMss sampleSizes sampleParams = 1460 ∧ udpMss sampleSizes sampleParams = 1472
    ∧ ((sampleParams.levelOneDCacheSize / 1460) * 1460) % UINT32_MOD = 32120
    ∧ ((sampleParams.levelOneDCacheSize / 1472) * 1472) % UINT32_MOD = 32384 := by
  decide

end Nettuner

namespace Nettuner

/-! ## `calcEthtoolSettings` -/

theorem roundToEight_eq (x : Nat) (h : x + 7 < UINT32_MOD) :
    roundToEight x = 8 * ((x + 7) / 8) := by
  unfold roundToEight
  rw [Nat.mod_eq_of_lt h, Nat.shiftRight_eq_div_pow, Nat.shiftLeft_eq]
  have h8 : (2 : Nat) ^ 3 = 8 := by decide
  rw [h8]
  have hle : (x + 7) / 8 * 8 ≤ x + 7 := Nat.div_mul_le_self _ _
  rw [Nat.mod_eq_of_lt (Nat.lt_of_le_of_lt hle h), Nat.mul_comm]

theorem clamped_multiple (r : Nat) (h8 : 8 ∣ r) :
    8 ∣ max 32 (min r 10000) ∧ 32 ≤ max 32 (min r 10000) ∧ max 32 (min r 10000) ≤ 10000 := by
  refine ⟨?_, by omega, by omega⟩
  rcases Nat.lt_or_ge r 32 with h | h
  · have : max 32 (min r 10000) = 32 := by omega
    rw [this]; decide
  · rcases Nat.lt_or_ge 10000 r with h' | h'
    · have : max 32 (min r 10000) = 10000 := by omega
      rw [this]; decide
    · have : max 32 (min r 10000) = r := by omega
      rw [this]; exact h8

/-- C24: for every `TuningCalcs` with positive `dlFramesPerSecond` and
`ulFramesPerSecond`, and `f45efac2_range` clamping its first argument into
`[min, max]`, `calcEthtoolSettings` returns; `rxIntCoalescing` is
`5000000 / dlFramesPerSecond` rounded up to a multiple of 8 and then clamped into
`[32, 10000]`, `txIntCoalescing` is the same for `1000000 / ulFramesPerSecond`; both
are multiples of 8 in `[32, 10000]`; both frame ring buffer sizes are 32. -/
theorem C24_interrupt_coalescing {F : Type} (fl : FloatArith F)
    (range : Nat → Nat → Nat → Nat) (calcs : TuningCalcs) (p : TuningParams F)
    (hrange : ∀ value lo hi : Nat, lo ≤ hi → range value lo hi = max lo (min value hi))
    (hdl : 0 < calcs.dlFramesPerSecond) (hul : 0 < calcs.ulFramesPerSecond) :
    ∃ s : EthtoolSettings, calcEthtoolSettings fl range calcs p = some s
      ∧ s.rxIntCoalescing
          = max 32 (min (8 * ((5000000 / calcs.dlFramesPerSecond + 7) / 8)) 10000)
      ∧ s.txIntCoalescing
          = max 32 (min (8 * ((1000000 / calcs.ulFramesPerSecond + 7) / 8)) 10000)
      ∧ (8 ∣ s.rxIntCoalescing ∧ 32 ≤ s.rxIntCoalescing ∧ s.rxIntCoalescing ≤ 10000)
      ∧ (8 ∣ s.txIntCoalescing ∧ 32 ≤ s.txIntCoalescing ∧ s.txIntCoalescing ≤ 10000)
      ∧ s.rxFrameRingBufferSize = 32 ∧ s.txFrameRingBufferSize = 32 := by
  have hne : ¬ (calcs.dlFramesPerSecond = 0 ∨ calcs.ulFramesPerSecond = 0) := by omega
  have hres : calcEthtoolSettings fl range calcs p = some
      { rxFrameRingBufferSize := 32
        txFrameRingBufferSize := 32
        rxIntCoalescing :=
          range (roundToEight ((5 * INT_COALESCING_BASE) / calcs.dlFramesPerSecond))
            32 10000 % UINT32_MOD
        txIntCoalescing :=
          range (roundToEight (INT_COALESCING_BASE / calcs.ulFramesPerSecond))
            32 10000 % UINT32_MOD
        txqueuelen :=
          roundToEight
            (fl.timesLatency calcs.ulFramesPerSecond p.acceptableLatency % UINT32_MOD) } := by
    simp only [calcEthtoolSettings, hne, if_false]
  have hrx0 : (5 * INT_COALESCING_BASE) / calcs.dlFramesPerSecond ≤ 5000000 :=
    Nat.div_le_self _ _
  have htx0 : INT_COALESCING_BASE / calcs.ulFramesPerSecond ≤ 1000000 :=
    Nat.div_le_self _ _
  have hrx : range (roundToEight ((5 * INT_COALESCING_BASE) / calcs.dlFramesPerSecond))
        32 10000 % UINT32_MOD
      = max 32 (min (8 * ((5000000 / calcs.dlFramesPerSecond + 7) / 8)) 10000) := by
    rw [hrange _ 32 10000 (by decide), roundToEight_eq _ (by unfold UINT32_MOD; omega)]
    have h5 : 5 * INT_COALESCING_BASE = 5000000 := by decide
    rw [h5]
    apply Nat.mod_eq_of_lt
    unfold UINT32_MOD
    omega
  have htx : range (roundToEight (INT_COALESCING_BASE / calcs.ulFramesPerSecond))
        32 10000 % UINT32_MOD
      = max 32 (min (8 * ((1000000 / calcs.ulFramesPerSecond + 7) / 8)) 10000) := by
    rw [hrange _ 32 10000 (by decide), roundToEight_eq _ (by unfold UINT32_MOD; omega)]
    have h1 : INT_COALESCING_BASE = 1000000 := by decide
    rw [h1]
    apply Nat.mod_eq_of_lt
    unfold UINT32_MOD
    omega
  refine ⟨_, hres, hrx, htx, ?_, ?_, rfl, rfl⟩
  · show 8 ∣ range _ 32 10000 % UINT32_MOD ∧ 32 ≤ range _ 32 10000 % UINT32_MOD
      ∧ range _ 32 10000 % UINT32_MOD ≤ 10000
    rw [hrx]
    exact clamped_multiple _ (Nat.dvd_mul_right 8 _)
  · show 8 ∣ range _ 32 10000 % UINT32_MOD ∧ 32 ≤ range _ 32 10000 % UINT32_MOD
      ∧ range _ 32 10000 % UINT32_MOD ≤ 10000
    rw [htx]
    exact clamped_multiple _ (Nat.dvd_mul_right 8 _)

theorem clampRange_eq (value lo hi : Nat) (h : lo ≤ hi) :
    clampRange value lo hi = max lo (min value hi) := by
  unfold clampRange
  split
  · omega
  · split <;> omega

/-- Witness of C24: 83333 frames per second in each direction. -/
theorem C24_interrupt_coalescing_witness :
    (0 < sampleCalcs.dlFramesPerSecond ∧ 0 < sampleCalcs.ulFramesPerSecond)
    ∧ ∃ s : EthtoolSettings,
      calcEthtoolSettings sampleFloat clampRange sampleCalcs sampleParams = some s
      ∧ s.rxIntCoalescing
          = max 32 (min (8 * ((5000000 / sampleCalcs.dlFramesPerSecond + 7) / 8)) 10000)
      ∧ s.txIntCoalescing
          = max 32 (min (8 * ((1000000 / sampleCalcs.ulFramesPerSecond + 7) / 8)) 10000)
      ∧ (8 ∣ s.rxIntCoalescing ∧ 32 ≤ s.rxIntCoalescing ∧ s.rxIntCoalescing ≤ 10000)
      ∧ (8 ∣ s.txIntCoalescing ∧ 32 ≤ s.txIntCoalescing ∧ s.txIntCoalescing ≤ 10000)
      ∧ s.rxFrameRingBufferSize = 32 ∧ s.txFrameRingBufferSize = 32 :=
  ⟨⟨by decide, by decide⟩,
    C24_interrupt_coalescing sampleFloat clampRange sampleCalcs sampleParams
      clampRange_eq (by decide) (by decide)⟩

theorem sample_coalescing :
    max 32 (min (8 * ((5000000 / sampleCalcs.dlFramesPerSecond + 7) / 8)) 10000) = 64
    ∧ max 32 (min (8 * ((1000000 / sampleCalcs.ulFramesPerSecond + 7) / 8)) 10000) = 32 := by
  decide

end Nettuner

namespace Nettuner

/-! ## `calcSysctlSettings` -/

theorem rawFactor_mul_lt (queueLength udp_mss aligned : Nat) :
    rawFactor queueLength udp_mss aligned * aligned < 268435456 := by
  unfold rawFactor
  rw [Nat.shiftRight_eq_div_pow]
  have h16 : (2 : Nat) ^ 4 = 16 := by decide
  rw [h16]
  have h1 : (queueLength * udp_mss) % UINT32_MOD < UINT32_MOD := Nat.mod_lt _ (by decide)
  have h2 : (queueLength * udp_mss) % UINT32_MOD / 16 / aligned * aligned
      ≤ (queueLength * udp_mss) % UINT32_MOD / 16 := Nat.div_mul_le_self _ _
  generalize (queueLength * udp_mss) % UINT32_MOD = n at h1 h2 ⊢
  unfold UINT32_MOD at h1
  omega

theorem rawFactor_lt (queueLength udp_mss aligned : Nat) :
    rawFactor queueLength udp_mss aligned < 268435456 := by
  unfold rawFactor
  rw [Nat.shiftRight_eq_div_pow]
  have h16 : (2 : Nat) ^ 4 = 16 := by decide
  rw [h16]
  have h1 : (queueLength * udp_mss) % UINT32_MOD < UINT32_MOD := Nat.mod_lt _ (by decide)
  have h2 : (queueLength * udp_mss) % UINT32_MOD / 16 / aligned
      ≤ (queueLength * udp_mss) % UINT32_MOD / 16 := Nat.div_le_self _ _
  generalize (queueLength * udp_mss) % UINT32_MOD = n at h1 h2 ⊢
  unfold UINT32_MOD at h1
  omega

theorem adjustFactor_eq (factor : Nat) (h : factor < 268435456) :
    adjustFactor factor = if factor = 0 ∨ factor % 2 = 1 then factor + 1 else factor := by
  unfold adjustFactor
  rw [Nat.and_one_is_mod]
  split
  · apply Nat.mod_eq_of_lt
    unfold UINT32_MOD
    omega
  · rfl

theorem adjustFactor_spec (factor : Nat) (h : factor < 268435456) :
    1 ≤ adjustFactor factor
    ∧ (factor = 0 → adjustFactor factor = 1)
    ∧ (factor ≠ 0 → 2 ∣ adjustFactor factor)
    ∧ adjustFactor factor ≤ factor + 1 := by
  rw [adjustFactor_eq factor h]
  split <;> omega

theorem adjusted_mul_lt (queueLength udp_mss aligned : Nat) (h0 : 0 < aligned)
    (h32 : aligned < UINT32_MOD) :
    adjustFactor (rawFactor queueLength udp_mss aligned) * aligned < UINT32_MOD := by
  have hlt := rawFactor_lt queueLength udp_mss aligned
  have hmul := rawFactor_mul_lt queueLength udp_mss aligned
  obtain ⟨-, hzero, -, hle⟩ := adjustFactor_spec _ hlt
  by_cases hr : rawFactor queueLength udp_mss aligned = 0
  · rw [hzero hr, Nat.one_mul]
    exact h32
  · have h1 : 1 ≤ rawFactor queueLength udp_mss aligned := Nat.one_le_iff_ne_zero.2 hr
    have h2 : aligned ≤ rawFactor queueLength udp_mss aligned * aligned :=
      Nat.le_mul_of_pos_left _ h1
    have h3 : adjustFactor (rawFactor queueLength udp_mss aligned) * aligned
        ≤ (rawFactor queueLength udp_mss aligned + 1) * aligned :=
      Nat.mul_le_mul_right _ hle
    rw [Nat.add_mul, Nat.one_mul] at h3
    unfold UINT32_MOD
    omega

theorem shiftLeft_three_mod (x : Nat) (h : 8 * x < UINT32_MOD) :
    (x <<< 3) % UINT32_MOD = 8 * x := by
  rw [Nat.shiftLeft_eq]
  have h8 : (2 : Nat) ^ 3 = 8 := by decide
  rw [h8, Nat.mul_comm]
  exact Nat.mod_eq_of_lt h

theorem shiftRight_one (x : Nat) : x >>> 1 = x / 2 := by
  rw [Nat.shiftRight_eq_div_pow, Nat.pow_one]
end Nettuner

namespace Nettuner

theorem calcSysctlSettings_fields {F : Type} (fl : FloatArith F) (eth : EthtoolSettings)
    (calcs : TuningCalcs) (p : TuningParams F)
    (hne : ¬ (calcs.aligned_udp_mss = 0 ∨ p.pageSize = 0)) :
    ∃ s : SysctlSettings, calcSysctlSettings fl eth calcs p = some s
      ∧ s.rmem_default = (rxFactor fl calcs p * calcs.aligned_udp_mss) % UINT32_MOD
      ∧ s.wmem_default = (txFactor eth calcs * calcs.aligned_udp_mss) % UINT32_MOD
      ∧ s.tcp_rmem_default = (rxFactor fl calcs p * calcs.aligned_tcp_mss) % UINT32_MOD
      ∧ s.tcp_wmem_default = (txFactor eth calcs * calcs.aligned_tcp_mss) % UINT32_MOD
      ∧ s.rmem_max = (s.rmem_default <<< 3) % UINT32_MOD
      ∧ s.wmem_max = (s.wmem_default <<< 3) % UINT32_MOD
      ∧ s.tcp_rmem_max = (s.tcp_rmem_default <<< 3) % UINT32_MOD
      ∧ s.tcp_wmem_max = (s.tcp_wmem_default <<< 3) % UINT32_MOD
      ∧ s.udp_rmem_min = s.rmem_default >>> 1
      ∧ s.udp_wmem_min = s.wmem_default >>> 1
      ∧ s.tcp_rmem_min = s.tcp_rmem_default >>> 1
      ∧ s.tcp_wmem_min = s.tcp_wmem_default >>> 1 := by
  simp only [calcSysctlSettings, hne, if_false]
  exact ⟨_, rfl, rfl, rfl, rfl, rfl, rfl, rfl, rfl, rfl, rfl, rfl, rfl, rfl⟩

/-- C25: for every input of `calcSysctlSettings` with a positive (32-bit)
`aligned_udp_mss` and a positive `pageSize`, the function returns; the adjusted
`rx_factor` and `tx_factor` are at least 1, equal to 1 when the raw quotient was 0
and even otherwise; `rmem_default` and `wmem_default` are the factor times
`aligned_udp_mss`, hence positive multiples of it; every `*_min` field is half of
its default; and every `*_max` field is 8 times its default whenever that product
fits in 32 bits. -/
theorem C25_factor_parity {F : Type} (fl : FloatArith F) (eth : EthtoolSettings)
    (calcs : TuningCalcs) (p : TuningParams F)
    (haligned : 0 < calcs.aligned_udp_mss) (h32 : calcs.aligned_udp_mss < UINT32_MOD)
    (hpage : 0 < p.pageSize) :
    ∃ s : SysctlSettings, calcSysctlSettings fl eth calcs p = some s
      ∧ (1 ≤ rxFactor fl calcs p
          ∧ (rawFactor (netdevMaxBacklog fl calcs p) calcs.udp_mss calcs.aligned_udp_mss = 0 →
              rxFactor fl calcs p = 1)
          ∧ (rawFactor (netdevMaxBacklog fl calcs p) calcs.udp_mss calcs.aligned_udp_mss ≠ 0 →
              2 ∣ rxFactor fl calcs p))
      ∧ (1 ≤ txFactor eth calcs
          ∧ (rawFactor eth.txqueuelen calcs.udp_mss calcs.aligned_udp_mss = 0 →
              txFactor eth calcs = 1)
          ∧ (rawFactor eth.txqueuelen calcs.udp_mss calcs.aligned_udp_mss ≠ 0 →
              2 ∣ txFactor eth calcs))
      ∧ (s.rmem_default = rxFactor fl calcs p * calcs.aligned_udp_mss ∧ 0 < s.rmem_default)
      ∧ (s.wmem_default = txFactor eth calcs * calcs.aligned_udp_mss ∧ 0 < s.wmem_default)
      ∧ (s.udp_rmem_min = s.rmem_default / 2 ∧ s.udp_wmem_min = s.wmem_default / 2
          ∧ s.tcp_rmem_min = s.tcp_rmem_default / 2
          ∧ s.tcp_wmem_min = s.tcp_wmem_default / 2)
      ∧ (8 * s.rmem_default < UINT32_MOD → s.rmem_max = 8 * s.rmem_default)
      ∧ (8 * s.wmem_default < UINT32_MOD → s.wmem_max = 8 * s.wmem_default)
      ∧ (8 * s.tcp_rmem_default < UINT32_MOD → s.tcp_rmem_max = 8 * s.tcp_rmem_default)
      ∧ (8 * s.tcp_wmem_default < UINT32_MOD → s.tcp_wmem_max = 8 * s.tcp_wmem_default) := by
  have hne : ¬ (calcs.aligned_udp_mss = 0 ∨ p.pageSize = 0) := by omega
  obtain ⟨s, hs, hr, hw, -, -, hrmax, hwmax, htrmax, htwmax, hrmin, hwmin, htrmin, htwmin⟩ :=
    calcSysctlSettings_fields fl eth calcs p hne
  have hrx := adjustFactor_spec _
    (rawFactor_lt (netdevMaxBacklog fl calcs p) calcs.udp_mss calcs.aligned_udp_mss)
  have htx := adjustFactor_spec _
    (rawFactor_lt eth.txqueuelen calcs.udp_mss calcs.aligned_udp_mss)
  have hr' : s.rmem_default = rxFactor fl calcs p * calcs.aligned_udp_mss := by
    rw [hr]
    exact Nat.mod_eq_of_lt (adjusted_mul_lt _ _ _ haligned h32)
  have hw' : s.wmem_default = txFactor eth calcs * calcs.aligned_udp_mss := by
    rw [hw]
    exact Nat.mod_eq_of_lt (adjusted_mul_lt _ _ _ haligned h32)
  refine ⟨s, hs, ⟨hrx.1, hrx.2.1, hrx.2.2.1⟩, ⟨htx.1, htx.2.1, htx.2.2.1⟩, ⟨hr', ?_⟩, ⟨hw', ?_⟩,
    ⟨?_, ?_, ?_, ?_⟩, ?_, ?_, ?_, ?_⟩
  · rw [hr']
    exact Nat.mul_pos hrx.1 haligned
  · rw [hw']
    exact Nat.mul_pos htx.1 haligned
  · rw [hrmin, shiftRight_one]
  · rw [hwmin, shiftRight_one]
  · rw [htrmin, shiftRight_one]
  · rw [htwmin, shiftRight_one]
  · intro h; rw [hrmax]; exact shiftLeft_three_mod _ h
  · intro h; rw [hwmax]; exact shiftLeft_three_mod _ h
  · intro h; rw [htrmax]; exact shiftLeft_three_mod _ h
  · intro h; rw [htwmax]; exact shiftLeft_three_mod _ h

/-- Witness of C25: the sample interface, `aligned_udp_mss = 32384` and 4 KiB pages. -/
theorem C25_factor_parity_witness :
    (0 < sampleCalcs.aligned_udp_mss ∧ sampleCalcs.aligned_udp_mss < UINT32_MOD
      ∧ 0 < sampleParams.pageSize)
    ∧ ∃ s : SysctlSettings,
      calcSysctlSettings sampleFloat sampleEthtool sampleCalcs sampleParams = some s
      ∧ 1 ≤ txFactor sampleEthtool sampleCalcs
      ∧ s.wmem_default = txFactor sampleEthtool sampleCalcs * sampleCalcs.aligned_udp_mss
      ∧ 0 < s.wmem_default
      ∧ s.udp_wmem_min = s.wmem_default / 2 :=
  ⟨⟨by decide, by decide, by decide⟩,
    (C25_factor_parity sampleFloat sampleEthtool sampleCalcs sampleParams
      (by decide) (by decide) (by decide)).imp
      (fun _ h => ⟨h.1, h.2.2.1.1, h.2.2.2.2.1.1, h.2.2.2.2.1.2, h.2.2.2.2.2.1.2.1⟩)⟩

theorem sample_txFactor :
    rawFactor sampleEthtool.txqueuelen sampleCalcs.udp_mss sampleCalcs.aligned_udp_mss = 23
    ∧ txFactor sampleEthtool sampleCalcs = 24 := by
  decide

end Nettuner

namespace Odfgrep

/-! ## `findODFFiles` -/

theorem lastIndexOf_eq_none_iff (c : Char) : ∀ s : List Char, lastIndexOf s c = none ↔ c ∉ s := by
  intro s
  induction s with
  | nil => simp [lastIndexOf]
  | cons x rest ih =>
    cases h : lastIndexOf rest c with
    | none =>
      have hc := ih.1 h
      by_cases hx : x = c
      · simp [lastIndexOf, h, hx]
      · simp [lastIndexOf, h, hx, hc, Ne.symm hx]
    | some i =>
      have hc : c ∈ rest := by
        by_contra hn
        rw [ih.2 hn] at h
        cases h
      simp [lastIndexOf, h, hc]

theorem lastIndexOf_eq_some_iff (c : Char) : ∀ (s : List Char) (i : Nat),
    lastIndexOf s c = some i ↔ (s[i]? = some c ∧ ∀ j : Nat, i < j → s[j]? ≠ some c) := by
  intro s
  induction s with
  | nil => intro i; simp [lastIndexOf]
  | cons x rest ih =>
    intro i
    cases h : lastIndexOf rest c with
    | some k =>
      have hk := (ih k).1 h
      constructor
      · intro hi
        simp only [lastIndexOf, h, Option.some.injEq] at hi
        subst hi
        refine ⟨by simpa using hk.1, ?_⟩
        intro j hj
        cases j with
        | zero => omega
        | succ j' =>
          simpa using hk.2 j' (by omega)
      · rintro ⟨hi1, hi2⟩
        simp only [lastIndexOf, h, Option.some.injEq]
        cases i with
        | zero =>
          exact absurd (by simpa using hk.1) (hi2 (k + 1) (by omega))
        | succ i' =>
          have h1 : rest[i']? = some c := by simpa using hi1
          have h2 : ∀ j : Nat, i' < j → rest[j]? ≠ some c := by
            intro j hj
            simpa using hi2 (j + 1) (by omega)
          have := (ih i').2 ⟨h1, h2⟩
          rw [h] at this
          exact congrArg (· + 1) (Option.some.inj this)
    | none =>
      have hc : c ∉ rest := (lastIndexOf_eq_none_iff c rest).1 h
      by_cases hx : x = c
      · subst hx
        simp only [lastIndexOf, h, if_true, Option.some.injEq]
        constructor
        · intro hi
          subst hi
          refine ⟨by simp, ?_⟩
          intro j hj hjc
          cases j with
          | zero => omega
          | succ j' =>
            exact hc (List.getElem?_mem (by simpa using hjc))
        · rintro ⟨hi1, -⟩
          cases i with
          | zero => rfl
          | succ i' => exact absurd (List.getElem?_mem (by simpa using hi1)) hc
      · simp only [lastIndexOf, h, hx, if_false]
        constructor
        · intro hi; cases hi
        · rintro ⟨hi1, -⟩
          cases i with
          | zero =>
            have : x = c := by simpa using hi1
            exact absurd this hx
          | succ i' => exact absurd (List.getElem?_mem (by simpa using hi1)) hc

theorem findsLastChar_lastIndexOf : FindsLastChar lastIndexOf :=
  fun s c => ⟨lastIndexOf_eq_none_iff c s, lastIndexOf_eq_some_iff c s⟩

theorem charAt_eq_iff (s : List Char) (k : Nat) (c : Char) (hc : c ≠ Char.ofNat 0) :
    charAt s k = c ↔ s[k]? = some c := by
  unfold charAt
  rw [List.getD_eq_getElem?_getD]
  cases h : s[k]? with
  | none => simp [Ne.symm hc]
  | some x => simp

end Odfgrep

namespace Odfgrep

theorem findLastChar_eq_lastIndexOf (findLastChar : List Char → Char → Option Nat)
    (h : FindsLastChar findLastChar) (s : List Char) (c : Char) :
    findLastChar s c = lastIndexOf s c := by
  cases hl : lastIndexOf s c with
  | none => exact ((h s c).1).2 ((lastIndexOf_eq_none_iff c s).1 hl)
  | some i => exact ((h s c).2 i).2 ((lastIndexOf_eq_some_iff c s i).1 hl)

theorem findODFFiles_iff (findLastChar : List Char → Char → Option Nat)
    (h : FindsLastChar findLastChar) (filename : String) :
    findODFFiles findLastChar filename = true ↔
      ∃ i : Nat, filename.data[i]? = some '.'
        ∧ (∀ j : Nat, i < j → filename.data[j]? ≠ some '.')
        ∧ i ≠ 0
        ∧ filename.data[i + 1]? = some 'o'
        ∧ filename.data[i + 2]? = some 'd'
        ∧ (filename.data[i + 3]? = some 't' ∨ filename.data[i + 3]? = some 's'
            ∨ filename.data[i + 3]? = some 'p') := by
  unfold findODFFiles
  cases hfl : findLastChar filename.data '.' with
  | none =>
    have hnot : '.' ∉ filename.data := ((h filename.data '.').1).1 hfl
    constructor
    · intro hf; cases hf
    · rintro ⟨i, hi, -⟩
      exact absurd (List.getElem?_mem hi) hnot
  | some e =>
    have he := ((h filename.data '.').2 e).1 hfl
    simp only [Bool.and_eq_true, Bool.or_eq_true, bne_iff_ne, ne_eq, beq_iff_eq,
      charAt_eq_iff _ _ _ (by decide : ('o' : Char) ≠ Char.ofNat 0),
      charAt_eq_iff _ _ _ (by decide : ('d' : Char) ≠ Char.ofNat 0),
      charAt_eq_iff _ _ _ (by decide : ('t' : Char) ≠ Char.ofNat 0),
      charAt_eq_iff _ _ _ (by decide : ('s' : Char) ≠ Char.ofNat 0),
      charAt_eq_iff _ _ _ (by decide : ('p' : Char) ≠ Char.ofNat 0)]
    constructor
    · rintro ⟨⟨⟨h0, h1⟩, h2⟩, h3⟩
      exact ⟨e, he.1, he.2, h0, h1, h2, by tauto⟩
    · rintro ⟨i, hi1, hi2, h0, h1, h2, h3⟩
      have hie : findLastChar filename.data '.' = some i :=
        ((h filename.data '.').2 i).2 ⟨hi1, hi2⟩
      rw [hfl] at hie
      have : e = i := Option.some.inj hie
      subst this
      exact ⟨⟨⟨h0, h1⟩, h2⟩, by tauto⟩

theorem findODFFiles_of_extension (findLastChar : List Char → Char → Option Nat)
    (h : FindsLastChar findLastChar) (stem rest : List Char) (c : Char)
    (hstem : stem ≠ []) (hc : c = 't' ∨ c = 's' ∨ c = 'p') (hrest : '.' ∉ rest) :
    findODFFiles findLastChar (String.mk (stem ++ '.' :: 'o' :: 'd' :: c :: rest)) = true := by
  rw [findODFFiles_iff findLastChar h]
  have hdata : (String.mk (stem ++ '.' :: 'o' :: 'd' :: c :: rest)).data
      = stem ++ '.' :: 'o' :: 'd' :: c :: rest := rfl
  rw [hdata]
  have hget : ∀ k : Nat, (stem ++ '.' :: 'o' :: 'd' :: c :: rest)[stem.length + k]?
      = ('.' :: 'o' :: 'd' :: c :: rest)[k]? := by
    intro k
    rw [List.getElem?_append_right (Nat.le_add_right _ _), Nat.add_sub_cancel_left]
  refine ⟨stem.length, ?_, ?_, ?_, ?_, ?_, ?_⟩
  · simpa using hget 0
  · intro j hj hjc
    obtain ⟨k, rfl⟩ : ∃ k, j = stem.length + (k + 1) := ⟨j - stem.length - 1, by omega⟩
    rw [hget (k + 1), List.getElem?_cons_succ] at hjc
    have hmem : '.' ∈ 'o' :: 'd' :: c :: rest := List.getElem?_mem hjc
    simp only [List.mem_cons] at hmem
    rcases hmem with h1 | h1 | h1 | h1
    · exact absurd h1 (by decide)
    · exact absurd h1 (by decide)
    · rcases hc with rfl | rfl | rfl <;> exact absurd h1 (by decide)
    · exact hrest h1
  · intro h0
    exact hstem (List.length_eq_zero.1 h0)
  · simpa using hget 1
  · simpa using hget 2
  · have := hget 3
    simp only [List.getElem?_cons_succ, List.getElem?_cons_zero] at this
    rw [this]
    rcases hc with rfl | rfl | rfl <;> simp

/-- C26: with `f6215943_findLastChar` returning the position of the last occurrence
of a character (`NULL` when there is none), `findODFFiles` returns true exactly when
the file name has a `.`, the last `.` is not the first character, and the three
characters right after that `.` are `o`, `d` and one of `t`, `s`, `p`. Hence every
name `stem.odt`, `stem.ods`, `stem.odp` with a non-empty stem is accepted, also when
more characters without a `.` follow (`a.odtx`), while `.odt` and `a.odg` are
rejected. -/
theorem C26_odf_file_filter (findLastChar : List Char → Char → Option Nat)
    (h : FindsLastChar findLastChar) (filename : String) :
    (findODFFiles findLastChar filename = true ↔
      ∃ i : Nat, filename.data[i]? = some '.'
        ∧ (∀ j : Nat, i < j → filename.data[j]? ≠ some '.')
        ∧ i ≠ 0
        ∧ filename.data[i + 1]? = some 'o'
        ∧ filename.data[i + 2]? = some 'd'
        ∧ (filename.data[i + 3]? = some 't' ∨ filename.data[i + 3]? = some 's'
            ∨ filename.data[i + 3]? = some 'p'))
    ∧ (∀ (stem rest : List Char) (c : Char), stem ≠ [] → (c = 't' ∨ c = 's' ∨ c = 'p') →
        '.' ∉ rest →
        findODFFiles findLastChar (String.mk (stem ++ '.' :: 'o' :: 'd' :: c :: rest)) = true)
    ∧ findODFFiles findLastChar "a.odtx" = true
    ∧ findODFFiles findLastChar "report.v2.ods" = true
    ∧ findODFFiles findLastChar ".odt" = false
    ∧ findODFFiles findLastChar "a.odg" = false
    ∧ findODFFiles findLastChar "odt" = false := by
  have hfun : findLastChar = lastIndexOf := by
    funext s c
    exact findLastChar_eq_lastIndexOf findLastChar h s c
  refine ⟨findODFFiles_iff findLastChar h filename,
    fun stem rest c hs hc hr => findODFFiles_of_extension findLastChar h stem rest c hs hc hr,
    ?_, ?_, ?_, ?_, ?_⟩ <;> rw [hfun] <;> decide

/-- Witness of C26: the last-occurrence search `lastIndexOf` and the name `notes.odp`. -/
theorem C26_odf_file_filter_witness :
    FindsLastChar lastIndexOf
    ∧ findODFFiles lastIndexOf "notes.odp" = true
    ∧ findODFFiles lastIndexOf "a.odtx" = true
    ∧ findODFFiles lastIndexOf ".odt" = false
    ∧ findODFFiles lastIndexOf "a.odg" = false :=
  ⟨findsLastChar_lastIndexOf,
    by decide,
    (C26_odf_file_filter lastIndexOf findsLastChar_lastIndexOf "notes.odp").2.2.1,
    (C26_odf_file_filter lastIndexOf findsLastChar_lastIndexOf "notes.odp").2.2.2.2.1,
    (C26_odf_file_filter lastIndexOf findsLastChar_lastIndexOf "notes.odp").2.2.2.2.2.1⟩

end Odfgrep
